import Mathlib

/-!
Verification of the nscan network-scanner core against its specification.

This file is a shallow embedding of the JavaScript sources:

* `src/utils/NetworkUtils.js` (= `src/unnamed/part_011`): IP/MAC parsing,
  CIDR arithmetic, IPv6 classification;
* `src/scanners/ArpScanner.js` (= `src/unnamed/part_003`): `_expandMac`;
* `src/models/Device.js`: the `Device` record, `merge`, `_calculateConfidence`;
* `src/analyzers/DataAggregator.js`: the IP-keyed aggregator;
* the MAC-keyed aggregator (`src/unnamed/part_008`);
* `src/analyzers/UsageInferrer.js`: the usage classifier.

Embedding conventions:

* JavaScript strings are Lean `String`s; all string manipulation is modelled
  by structurally recursive functions over `String.data` (`List Char`) so
  that every definition is executable and kernel-reducible.  The inputs of
  interest are ASCII, for which `Char.toLower`/`Char.toUpper` agree with
  JavaScript `toLowerCase`/`toUpperCase`.
* JavaScript numbers in the bitwise fragment are modelled as `Int` with the
  ECMAScript `ToInt32`/`ToUint32` conversions made explicit (`toInt32`,
  `toUint32`); shift counts are reduced mod 32 exactly as ECMAScript does.
* Dotted-quad IPv4 strings `"A.B.C.D"` are represented by their four decimal
  fields (structure `IPv4`); `parseInt` of a decimal octet is the field.
* ISO-8601 timestamp strings (`new Date().toISOString()`) compare
  lexicographically in chronological order, so they are modelled as `Nat`;
  `new Date()` at a call site becomes an explicit `now : Nat` parameter.
* `null`/`undefined` valued fields are `Option` fields; the JavaScript
  truthiness test `x ? … : …` on a string field is `Option` matching
  (the spec never feeds the aggregator empty-string identifiers), and on a
  numeric field the combinator `jsOrNat` also treats `0` as falsy.
-/

/-! ## String primitives (JavaScript string operations) -/

/-- JS `s.toLowerCase()` (ASCII fragment). -/
def strLower (s : String) : String := ⟨s.data.map Char.toLower⟩

/-- Characters of `s` before the first occurrence of `sep`;
`s.split(sep)[0]` in JS. -/
def takeUntil (sep : Char) : List Char → List Char
  | [] => []
  | c :: cs => if c = sep then [] else c :: takeUntil sep cs

/-- `startsW pat s` : does `s` start with `pat`?  (`s.startsWith(pat)`). -/
def startsW : List Char → List Char → Bool
  | [], _ => true
  | _ :: _, [] => false
  | p :: ps, c :: cs => p == c && startsW ps cs

/-- JS `s.startsWith(pat)`. -/
def strStarts (s pat : String) : Bool := startsW pat.data s.data

/-- Does some suffix of the list satisfy `p`? -/
def anyTail (p : List Char → Bool) : List Char → Bool
  | [] => p []
  | c :: cs => p (c :: cs) || anyTail p cs

/-- JS `s.includes(pat)`. -/
def containsSub (s pat : String) : Bool := anyTail (fun t => startsW pat.data t) s.data

/-- Value of a hexadecimal digit. -/
def hexDigitVal (c : Char) : Option Nat :=
  if '0' ≤ c ∧ c ≤ '9' then some (c.toNat - '0'.toNat)
  else if 'a' ≤ c ∧ c ≤ 'f' then some (c.toNat - 'a'.toNat + 10)
  else if 'A' ≤ c ∧ c ≤ 'F' then some (c.toNat - 'A'.toNat + 10)
  else none

/-- Accumulate leading hex digits (JS `parseInt` stops at the first
non-digit). -/
def parseHexDigits : List Char → Nat → Nat
  | [], acc => acc
  | c :: cs, acc =>
    match hexDigitVal c with
    | some v => parseHexDigits cs (acc * 16 + v)
    | none => acc

/-- JS `parseInt(s, 16)`: `none` is `NaN` (no leading hex digit).  The JS
function also skips leading whitespace and signs; the strings fed to it here
(first colon-groups of addresses) never carry those. -/
def jsParseHex (s : String) : Option Nat :=
  match s.data with
  | [] => none
  | c :: cs =>
    match hexDigitVal c with
    | some v => some (parseHexDigits cs v)
    | none => none

/-! ## NetworkUtils: IPv6 classification (`src/utils/NetworkUtils.js`) -/

/-- `stripIPv6ZoneId` / the `ip.split('%')[0]` idiom. -/
def stripIPv6ZoneId (ip : String) : String := ⟨takeUntil '%' ip.data⟩

/-- `isLinkLocalIPv6`: textual check
`addr.startsWith('fe80:') || addr.startsWith('fe80::')`. -/
def isLinkLocalIPv6 (ip : String) : Bool :=
  let addr := strLower (stripIPv6ZoneId ip)
  strStarts addr "fe80:" || strStarts addr "fe80::"

/-- `isGlobalUnicastIPv6`: first 16-bit group parsed with
`parseInt(…, 16)` in `0x2000..0x3fff` (`NaN` comparisons are false). -/
def isGlobalUnicastIPv6 (ip : String) : Bool :=
  let addr := strLower (stripIPv6ZoneId ip)
  let firstGroup : String := ⟨takeUntil ':' addr.data⟩
  match jsParseHex firstGroup with
  | some v => decide (0x2000 ≤ v) && decide (v ≤ 0x3fff)
  | none => false

/-- `isUniqueLocalIPv6`: textual `fc`/`fd` check. -/
def isUniqueLocalIPv6 (ip : String) : Bool :=
  let addr := strLower (stripIPv6ZoneId ip)
  strStarts addr "fc" || strStarts addr "fd"

/-- `isMulticastIPv6`: textual `ff` check. -/
def isMulticastIPv6 (ip : String) : Bool :=
  let addr := strLower (stripIPv6ZoneId ip)
  strStarts addr "ff"

/-- `getIPv6Type`.  Note that the loopback comparison is done on the raw
input (`ip.toLowerCase() === '::1'`) without stripping a zone identifier. -/
def getIPv6Type (ip : String) : String :=
  if isLinkLocalIPv6 ip then "link-local"
  else if isGlobalUnicastIPv6 ip then "global"
  else if isUniqueLocalIPv6 ip then "unique-local"
  else if isMulticastIPv6 ip then "multicast"
  else if strLower ip == "::1" then "loopback"
  else "unknown"

/-- Modelled from the spec (§4.1): classification of a textual IPv6 address
by leading bits, used to compare the implementation with the specified
behaviour.  Zone identifier stripped first; `fe80::/10`, `fc00::/7`,
`ff00::/8`, `::1`, first group in `0x2000..0x3fff`, otherwise unknown.
A leading-bits range test on the textual form is the value of the first
16-bit group lying in the corresponding interval. -/
def specIPv6Classify (ip : String) : String :=
  let addr := strLower (stripIPv6ZoneId ip)
  let firstGroup : String := ⟨takeUntil ':' addr.data⟩
  let v := (jsParseHex firstGroup).getD 0
  if 0xfe80 ≤ v ∧ v ≤ 0xfebf ∧ firstGroup ≠ "" then "link-local"
  else if 0xfc00 ≤ v ∧ v ≤ 0xfdff ∧ firstGroup ≠ "" then "unique-local"
  else if 0xff00 ≤ v ∧ firstGroup ≠ "" then "multicast"
  else if addr = "::1" then "loopback"
  else if 0x2000 ≤ v ∧ v ≤ 0x3fff ∧ firstGroup ≠ "" then "global"
  else "unknown"

/-! ## NetworkUtils: MAC normalisation, and ArpScanner `_expandMac` -/

/-- The cleaning step of `normalizeMac`:
`mac.replace(/[:-]/g, '').toUpperCase()`. -/
def macClean (mac : String) : List Char :=
  (mac.data.filter (fun c => !(c == ':' || c == '-'))).map Char.toUpper

/-- `cleaned.match(/.{2}/g)`: non-overlapping pairs (a trailing odd
character yields no group). -/
def chunk2 : List Char → List (List Char)
  | a :: b :: rest => [a, b] :: chunk2 rest
  | _ => []

/-- `.join(':')`. -/
def joinColon : List (List Char) → List Char
  | [] => []
  | [p] => p
  | p :: rest => p ++ ':' :: joinColon rest

/-- `normalizeMac` (`src/utils/NetworkUtils.js`): strip `:`/`-`, uppercase;
if the cleaned length is not 12 the original input is returned unchanged;
otherwise colons are inserted every two characters. -/
def normalizeMac (mac : String) : String :=
  let cleaned := macClean mac
  if cleaned.length = 12 then ⟨joinColon (chunk2 cleaned)⟩ else mac

/-- JS `'a:b'.split(':')` (keeps empty groups). -/
def splitChar (sep : Char) : List Char → List (List Char)
  | [] => [[]]
  | c :: cs =>
    if c = sep then [] :: splitChar sep cs
    else
      match splitChar sep cs with
      | g :: gs => (c :: g) :: gs
      | [] => [[c]]

/-- JS `part.padStart(2, '0')`. -/
def padStart2 (p : List Char) : List Char :=
  if 2 ≤ p.length then p else List.replicate (2 - p.length) '0' ++ p

/-- `ArpScanner._expandMac` (`src/scanners/ArpScanner.js`): left-pad each
colon-separated octet to two characters.  A falsy input (empty string) is
returned unchanged. -/
def expandMac (mac : String) : String :=
  if mac == "" then mac
  else ⟨joinColon ((splitChar ':' mac.data).map padStart2)⟩

example : normalizeMac "00:1a:2b:3c:4d:5e" = "00:1A:2B:3C:4D:5E" := by decide
example : normalizeMac "0:0:5e:0:1:f" = "0:0:5e:0:1:f" := by decide
example : normalizeMac (expandMac "0:0:5e:0:1:f") = "00:00:5E:00:01:0F" := by decide
example : getIPv6Type "fe80::1" = "link-local" := by decide
example : getIPv6Type "::1" = "loopback" := by decide
example : getIPv6Type "::" = "unknown" := by decide
example : getIPv6Type "fe81::1" = "unknown" := by decide
example : specIPv6Classify "fe81::1" = "link-local" := by decide
example : getIPv6Type "2001:db8::1" = "global" := by decide
example : getIPv6Type "::1%lo0" = "unknown" := by decide
example : specIPv6Classify "::1%lo0" = "loopback" := by decide

/-! ## NetworkUtils: IPv4 / CIDR arithmetic

ECMAScript bitwise operators convert their operands with `ToInt32`
(`ToUint32` for `>>>`), operate on 32 bits, and return a signed
(resp. unsigned) 32-bit value; shift counts are taken mod 32. -/

/-- ECMAScript `ToUint32`. -/
def toUint32 (x : Int) : Nat := (x % (2 ^ 32 : Int)).toNat

/-- ECMAScript `ToInt32`. -/
def toInt32 (x : Int) : Int :=
  if toUint32 x < 2 ^ 31 then (toUint32 x : Int) else (toUint32 x : Int) - 2 ^ 32

/-- JS `x & y`. -/
def jsAnd (x y : Int) : Int := toInt32 ((toUint32 x &&& toUint32 y : Nat) : Int)

/-- JS `x | y`. -/
def jsOr (x y : Int) : Int := toInt32 ((toUint32 x ||| toUint32 y : Nat) : Int)

/-- JS `x << k`. -/
def jsShl (x : Int) (k : Nat) : Int := toInt32 ((toUint32 x) <<< (k % 32) : Nat)

/-- JS `x >>> k` (unsigned result). -/
def jsShrU (x : Int) (k : Nat) : Int := ((toUint32 x) >>> (k % 32) : Nat)

/-- JS `~x` (`~x = -ToInt32(x) - 1`). -/
def jsNot (x : Int) : Int := toInt32 (-x - 1)

/-- A dotted-quad IPv4 string `"A.B.C.D"`, represented by its four decimal
octet fields. -/
structure IPv4 where
  a : Nat
  b : Nat
  c : Nat
  d : Nat
deriving DecidableEq

/-- Validity of the textual form: each octet in `0..255`. -/
def IPv4.valid (ip : IPv4) : Prop :=
  ip.a < 256 ∧ ip.b < 256 ∧ ip.c < 256 ∧ ip.d < 256

instance (ip : IPv4) : Decidable ip.valid := by
  unfold IPv4.valid; infer_instance

/-- `ipToInt`: `(a << 24) | (b << 16) | (c << 8) | d` (a signed 32-bit JS
number). -/
def ipToInt (ip : IPv4) : Int :=
  jsOr (jsOr (jsOr (jsShl ip.a 24) (jsShl ip.b 16)) (jsShl ip.c 8)) ip.d

/-- `intToIp`: `[(x >>> 24) & 0xff, (x >>> 16) & 0xff, (x >>> 8) & 0xff,
x & 0xff].join('.')`. -/
def intToIp (x : Int) : IPv4 :=
  { a := (jsAnd (jsShrU x 24) 255).toNat
    b := (jsAnd (jsShrU x 16) 255).toNat
    c := (jsAnd (jsShrU x 8) 255).toNat
    d := (jsAnd x 255).toNat }

/-- The mask `(-1 << (32 - maskBits)) >>> 0` of `getNetworkAddress` /
`getBroadcastAddress`. -/
def cidrMask (maskBits : Nat) : Int := jsShrU (jsShl (-1) (32 - maskBits)) 0

/-- `getNetworkAddress`. -/
def getNetworkAddress (ip : IPv4) (maskBits : Nat) : IPv4 :=
  intToIp (jsShrU (jsAnd (ipToInt ip) (cidrMask maskBits)) 0)

/-- `getBroadcastAddress`. -/
def getBroadcastAddress (ip : IPv4) (maskBits : Nat) : IPv4 :=
  intToIp (jsShrU (jsOr (ipToInt ip) (jsNot (cidrMask maskBits))) 0)

/-- `getHostCount`: `Math.pow(2, 32 - maskBits) - 2` (exact in IEEE doubles
for `maskBits ≤ 32`). -/
def getHostCount (maskBits : Nat) : Int := 2 ^ (32 - maskBits) - 2

/-- Result of `getCIDRRange`. -/
structure CIDRRange where
  network : IPv4
  broadcast : IPv4
  firstHost : IPv4
  lastHost : IPv4
  hostCount : Int
deriving DecidableEq

/-- `getCIDRRange` on a CIDR `A.B.C.D/N` (the string split into quad and
mask count). -/
def getCIDRRange (ip : IPv4) (maskBits : Nat) : CIDRRange :=
  let networkAddr := getNetworkAddress ip maskBits
  let broadcastAddr := getBroadcastAddress ip maskBits
  { network := networkAddr
    broadcast := broadcastAddr
    firstHost := intToIp (ipToInt networkAddr + 1)
    lastHost := intToIp (ipToInt broadcastAddr - 1)
    hostCount := getHostCount maskBits }

example : getNetworkAddress ⟨192, 168, 1, 77⟩ 24 = ⟨192, 168, 1, 0⟩ := by decide
example : getBroadcastAddress ⟨192, 168, 1, 77⟩ 24 = ⟨192, 168, 1, 255⟩ := by decide
set_option maxRecDepth 4000 in
example : (getCIDRRange ⟨192, 168, 1, 77⟩ 24).firstHost = ⟨192, 168, 1, 1⟩ := by decide
set_option maxRecDepth 4000 in
example : (getCIDRRange ⟨192, 168, 1, 77⟩ 24).lastHost = ⟨192, 168, 1, 254⟩ := by decide
example : getNetworkAddress ⟨1, 2, 3, 4⟩ 0 = ⟨1, 2, 3, 4⟩ := by decide
example : getHostCount 31 = 0 := rfl
example : getHostCount 32 = -1 := rfl

/-! ## C7: IPv6 classification claims -/

theorem startsW_append_left (p q l : List Char) :
    startsW (p ++ q) l = true → startsW p l = true := by
  induction p generalizing l with
  | nil => intro _; rfl
  | cons x xs ih =>
    cases l with
    | nil => intro h; exact absurd h (by simp [startsW])
    | cons c cs =>
      simp only [List.cons_append, startsW, Bool.and_eq_true]
      exact fun h => ⟨h.1, ih cs h.2⟩

/-- The second disjunct of `isLinkLocalIPv6` is redundant: a `fe80::`
test subsumes into the `fe80:` test. -/
theorem isLinkLocalIPv6_iff (ip : String) :
    isLinkLocalIPv6 ip = true ↔ strStarts (strLower (stripIPv6ZoneId ip)) "fe80:" = true := by
  unfold isLinkLocalIPv6
  simp only [Bool.or_eq_true]
  constructor
  · rintro (h | h)
    · exact h
    · unfold strStarts at h ⊢
      have hd : "fe80::".data = "fe80:".data ++ [':'] := by decide
      rw [hd] at h
      exact startsW_append_left _ _ _ h
  · exact fun h => Or.inl h

/-- C7 (counterexample): the claim says every address in `fe80::/10` is
classified link-local and that the zone identifier is stripped before the
loopback comparison.  `fe81::1` lies in `fe80::/10` (first group `0xfe81`)
yet classifies `unknown`, and `::1%lo0` classifies `unknown` rather than
`loopback`. -/
theorem getIPv6Type_spec_counterexample :
    getIPv6Type "fe81::1" = "unknown" ∧ specIPv6Classify "fe81::1" = "link-local"
    ∧ getIPv6Type "::1%lo0" = "unknown" ∧ specIPv6Classify "::1%lo0" = "loopback"
    ∧ ("unknown" : String) ≠ "link-local" := by
  refine ⟨by decide, by decide, by decide, by decide, by decide⟩

/-- C7 (amended): classification strips the zone identifier for the four
pattern tests but not for the loopback comparison, and recognises
link-local by the textual `fe80:` head (not the whole `fe80::/10` range):
link-local exactly when the stripped lowercased text starts with `fe80:`;
otherwise global when the first 16-bit group parses into `0x2000..0x3fff`;
otherwise unique-local on a `fc`/`fd` head; otherwise multicast on a `ff`
head; otherwise loopback exactly when the raw input lowercases to `::1`;
otherwise unknown.  In particular `::` classifies as unknown and `::1` as
loopback. -/
theorem getIPv6Type_amended_characterisation (ip : String) :
    (getIPv6Type ip = "link-local" ↔ strStarts (strLower (stripIPv6ZoneId ip)) "fe80:" = true)
    ∧ (getIPv6Type ip = "global" ↔
        (isLinkLocalIPv6 ip = false ∧ isGlobalUnicastIPv6 ip = true))
    ∧ (getIPv6Type ip = "unique-local" ↔
        (isLinkLocalIPv6 ip = false ∧ isGlobalUnicastIPv6 ip = false ∧
          isUniqueLocalIPv6 ip = true))
    ∧ (getIPv6Type ip = "multicast" ↔
        (isLinkLocalIPv6 ip = false ∧ isGlobalUnicastIPv6 ip = false ∧
          isUniqueLocalIPv6 ip = false ∧ isMulticastIPv6 ip = true))
    ∧ (getIPv6Type ip = "loopback" ↔
        (isLinkLocalIPv6 ip = false ∧ isGlobalUnicastIPv6 ip = false ∧
          isUniqueLocalIPv6 ip = false ∧ isMulticastIPv6 ip = false ∧
          strLower ip = "::1"))
    ∧ getIPv6Type "::" = "unknown" ∧ getIPv6Type "::1" = "loopback" := by
  have hcases :
      (getIPv6Type ip = "link-local" ↔ isLinkLocalIPv6 ip = true)
      ∧ (getIPv6Type ip = "global" ↔
          (isLinkLocalIPv6 ip = false ∧ isGlobalUnicastIPv6 ip = true))
      ∧ (getIPv6Type ip = "unique-local" ↔
          (isLinkLocalIPv6 ip = false ∧ isGlobalUnicastIPv6 ip = false ∧
            isUniqueLocalIPv6 ip = true))
      ∧ (getIPv6Type ip = "multicast" ↔
          (isLinkLocalIPv6 ip = false ∧ isGlobalUnicastIPv6 ip = false ∧
            isUniqueLocalIPv6 ip = false ∧ isMulticastIPv6 ip = true))
      ∧ (getIPv6Type ip = "loopback" ↔
          (isLinkLocalIPv6 ip = false ∧ isGlobalUnicastIPv6 ip = false ∧
            isUniqueLocalIPv6 ip = false ∧ isMulticastIPv6 ip = false ∧
            strLower ip = "::1")) := by
    unfold getIPv6Type
    cases h1 : isLinkLocalIPv6 ip <;>
      cases h2 : isGlobalUnicastIPv6 ip <;>
      cases h3 : isUniqueLocalIPv6 ip <;>
      cases h4 : isMulticastIPv6 ip <;>
      cases h5 : strLower ip == "::1" <;>
      simp_all [beq_iff_eq, beq_eq_false_iff_ne, String.ext_iff]
  exact ⟨hcases.1.trans (isLinkLocalIPv6_iff ip), hcases.2.1, hcases.2.2.1,
    hcases.2.2.2.1, hcases.2.2.2.2, by decide, by decide⟩

/-! ## C8: MAC normalisation claims -/

/-- C8 (counterexample): `normalizeMac` does not left-pad abbreviated
octets; the cleaned form of `0:0:5e:0:1:f` has 7 characters, so the input
is returned unchanged instead of `00:00:5E:00:01:0F`. -/
theorem normalizeMac_no_padding_counterexample :
    normalizeMac "0:0:5e:0:1:f" = "0:0:5e:0:1:f"
    ∧ ("0:0:5e:0:1:f" : String) ≠ "00:00:5E:00:01:0F" := by
  exact ⟨by decide, by decide⟩

theorem joinColon_chunk2_length :
    ∀ k : Nat, 0 < k → ∀ l : List Char, l.length = 2 * k →
      (joinColon (chunk2 l)).length = 3 * k - 1 := by
  intro k
  induction k with
  | zero => omega
  | succ k ih =>
    intro _ l hl
    cases l with
    | nil => simp at hl
    | cons a l1 =>
      cases l1 with
      | nil => simp at hl; omega
      | cons b rest =>
        have hr : rest.length = 2 * k := by
          simp only [List.length_cons] at hl; omega
        by_cases hk : k = 0
        · subst hk
          have : rest = [] := by
            cases rest with
            | nil => rfl
            | cons c r2 => simp at hr
          subst this
          simp [chunk2, joinColon]
        · have hk1 : 0 < k := Nat.pos_of_ne_zero hk
          cases rest with
          | nil => simp at hr; omega
          | cons c rest1 =>
            cases rest1 with
            | nil => simp at hr; omega
            | cons d rest2 =>
              have ihx := ih hk1 (c :: d :: rest2) (by simpa using hr)
              show (joinColon ([a, b] :: chunk2 (c :: d :: rest2))).length = _
              have hc : chunk2 (c :: d :: rest2) = [c, d] :: chunk2 rest2 := rfl
              rw [hc]
              rw [hc] at ihx
              simp only [joinColon, List.length_append, List.length_cons,
                List.length_nil] at ihx ⊢
              omega

/-- C8 (amended): `normalizeMac` accepts colon-separated, dash-separated
and unseparated forms of twelve hex digits — inputs with the same cleaned
form normalise identically — and produces the 17-character uppercase
colon-separated canonical form; an input whose cleaned form does not have
exactly twelve characters is returned unchanged (no left-padding of
abbreviated octets).  Left-padding is a separate step
(`ArpScanner._expandMac`) applied before normalisation, and the composition
maps `0:0:5e:0:1:f` to `00:00:5E:00:01:0F`. -/
theorem normalizeMac_amended :
    (∀ s t : String, macClean s = macClean t → (macClean s).length = 12 →
      normalizeMac s = normalizeMac t)
    ∧ (∀ s : String, (macClean s).length = 12 → (normalizeMac s).length = 17)
    ∧ (∀ s : String, (macClean s).length ≠ 12 → normalizeMac s = s)
    ∧ normalizeMac (expandMac "0:0:5e:0:1:f") = "00:00:5E:00:01:0F"
    ∧ normalizeMac "00:1a:2b:3c:4d:5e" = "00:1A:2B:3C:4D:5E"
    ∧ normalizeMac "00-1a-2b-3c-4d-5e" = "00:1A:2B:3C:4D:5E"
    ∧ normalizeMac "001a2b3c4d5e" = "00:1A:2B:3C:4D:5E" := by
  refine ⟨?_, ?_, ?_, by decide, by decide, by decide, by decide⟩
  · intro s t hst h12
    unfold normalizeMac
    rw [hst] at h12 ⊢
    rw [if_pos h12, if_pos h12]
  · intro s h12
    unfold normalizeMac
    rw [if_pos h12]
    show (joinColon (chunk2 (macClean s))).length = 17
    have := joinColon_chunk2_length 6 (by omega) (macClean s) (by omega)
    simpa using this
  · intro s h12
    unfold normalizeMac
    rw [if_neg h12]

/-- C8 (witness for the amended theorem's conditional conjuncts, applied at
concrete inputs). -/
theorem normalizeMac_amended_witness :
    normalizeMac "zz" = "zz" ∧ (normalizeMac "001a2b3c4d5e").length = 17 :=
  ⟨normalizeMac_amended.2.2.1 "zz" (by decide),
   normalizeMac_amended.2.1 "001a2b3c4d5e" (by decide)⟩

/-! ## C9: CIDR arithmetic claims -/

theorem toUint32_lt (x : Int) : toUint32 x < 2 ^ 32 := by
  unfold toUint32
  have h1 : x % (2 ^ 32 : Int) < 2 ^ 32 := Int.emod_lt_of_pos x (by positivity)
  have h0 : 0 ≤ x % (2 ^ 32 : Int) := Int.emod_nonneg x (by positivity)
  have e : (2 : Int) ^ 32 = 4294967296 := by norm_num
  have e2 : (2 : Nat) ^ 32 = 4294967296 := by norm_num
  omega

theorem toUint32_ofNat (u : Nat) (h : u < 2 ^ 32) : toUint32 (u : Int) = u := by
  unfold toUint32
  rw [Int.emod_eq_of_lt (by positivity) (by exact_mod_cast h)]
  exact Int.toNat_ofNat u

theorem toUint32_congr (x y : Int) (h : x % 2 ^ 32 = y % 2 ^ 32) :
    toUint32 x = toUint32 y := by unfold toUint32; rw [h]

theorem toUint32_sub_pow (x : Int) : toUint32 (x - 2 ^ 32) = toUint32 x := by
  refine toUint32_congr _ _ ?_
  have : x - 2 ^ 32 = x + 2 ^ 32 * (-1) := by ring
  rw [this, Int.add_mul_emod_self_left]

theorem toInt32_spec (x : Int) :
    toInt32 x = (toUint32 x : Int) ∨ toInt32 x = (toUint32 x : Int) - 2 ^ 32 := by
  unfold toInt32; split
  · exact Or.inl rfl
  · exact Or.inr rfl

theorem toUint32_toInt32 (x : Int) : toUint32 (toInt32 x) = toUint32 x := by
  rcases toInt32_spec x with h | h <;> rw [h]
  · exact toUint32_ofNat _ (toUint32_lt x)
  · rw [toUint32_sub_pow]
    exact toUint32_ofNat _ (toUint32_lt x)

theorem toInt32_coe (m : Nat) (h : m < 2 ^ 32) :
    toInt32 (m : Int) = if m < 2 ^ 31 then (m : Int) else (m : Int) - 2 ^ 32 := by
  unfold toInt32
  rw [toUint32_ofNat m h]

-- bit-level Nat lemmas
theorem testBit_high_add_low (a b k i : Nat) (hb : b < 2 ^ k) :
    (a * 2 ^ k + b).testBit i = if i < k then b.testBit i else a.testBit (i - k) := by
  by_cases hik : i < k
  · rw [if_pos hik]
    have h1 : (a * 2 ^ k + b) % 2 ^ k = b := by
      rw [Nat.add_comm, Nat.add_mul_mod_self_right, Nat.mod_eq_of_lt hb]
    have h4 := Nat.testBit_mod_two_pow (a * 2 ^ k + b) k i
    rw [h1] at h4
    rw [h4]
    simp [hik]
  · rw [if_neg hik]
    have h2 : (a * 2 ^ k + b) / 2 ^ k = a := by
      rw [Nat.add_comm, Nat.add_mul_div_right _ _ (Nat.pos_pow_of_pos k (by norm_num)),
        Nat.div_eq_of_lt hb, Nat.zero_add]
    have h3 := Nat.testBit_shiftRight (i := k) (j := i - k) (a * 2 ^ k + b)
    rw [Nat.shiftRight_eq_div_pow, h2] at h3
    rw [h3]
    congr 1
    omega

theorem lor_high_low (a b k : Nat) (hb : b < 2 ^ k) :
    (a * 2 ^ k) ||| b = a * 2 ^ k + b := by
  apply Nat.eq_of_testBit_eq
  intro i
  rw [Nat.testBit_lor, testBit_high_add_low a b k i hb]
  have hs : a * 2 ^ k = a <<< k := by rw [Nat.shiftLeft_eq]
  by_cases hik : i < k
  · rw [if_pos hik, hs, Nat.testBit_shiftLeft]
    have : ¬ (i ≥ k) := by omega
    simp [this]
  · rw [if_neg hik, hs, Nat.testBit_shiftLeft]
    have hge : i ≥ k := by omega
    have hbi : b.testBit i = false :=
      Nat.testBit_eq_false_of_lt (lt_of_lt_of_le hb (Nat.pow_le_pow_right (by norm_num) hge))
    simp [hge, hbi]

theorem land_low (u k : Nat) : u &&& (2 ^ k - 1) = u % 2 ^ k := by
  apply Nat.eq_of_testBit_eq
  intro i
  rw [Nat.testBit_land, Nat.testBit_two_pow_sub_one, Nat.testBit_mod_two_pow]
  exact Bool.and_comm _ _

theorem land_mask (u k : Nat) (hu : u < 2 ^ 32) (hk : k ≤ 32) :
    u &&& (2 ^ 32 - 2 ^ k) = u / 2 ^ k * 2 ^ k := by
  apply Nat.eq_of_testBit_eq
  intro i
  have hm : 2 ^ 32 - 2 ^ k = (2 ^ (32 - k) - 1) * 2 ^ k := by
    rw [Nat.sub_mul, Nat.one_mul, ← pow_add]
    congr 2
    omega
  have hrhs : u / 2 ^ k * 2 ^ k = (u >>> k) <<< k := by
    rw [Nat.shiftLeft_eq, Nat.shiftRight_eq_div_pow]
  rw [Nat.testBit_land, hm, hrhs, Nat.testBit_shiftLeft, Nat.testBit_shiftRight]
  have hmask : ((2 ^ (32 - k) - 1) * 2 ^ k).testBit i
      = ((2 ^ (32 - k) - 1) <<< k).testBit i := by rw [Nat.shiftLeft_eq]
  rw [hmask, Nat.testBit_shiftLeft, Nat.testBit_two_pow_sub_one]
  by_cases hik : i ≥ k
  · have hki : k + (i - k) = i := by omega
    rw [hki]
    by_cases h32 : i < 32
    · have : i - k < 32 - k := by omega
      simp [hik, this]
    · have h1 : u.testBit i = false :=
        Nat.testBit_eq_false_of_lt
          (lt_of_lt_of_le hu (Nat.pow_le_pow_right (by norm_num) (by omega)))
      have : ¬ (i - k < 32 - k) := by omega
      simp [hik, this, h1]
  · simp [hik]

theorem lor_low_mask (u k : Nat) :
    u ||| (2 ^ k - 1) = u / 2 ^ k * 2 ^ k + (2 ^ k - 1) := by
  apply Nat.eq_of_testBit_eq
  intro i
  have hb : 2 ^ k - 1 < 2 ^ k := by
    have : 0 < 2 ^ k := Nat.pos_pow_of_pos k (by norm_num)
    omega
  rw [Nat.testBit_lor, testBit_high_add_low (u / 2 ^ k) _ k i hb]
  by_cases hik : i < k
  · rw [if_pos hik, Nat.testBit_two_pow_sub_one]
    simp [hik]
  · rw [if_neg hik]
    have h1 : (2 ^ k - 1).testBit i = false := by
      rw [Nat.testBit_two_pow_sub_one]
      simp [hik]
    have h2 : (u / 2 ^ k).testBit (i - k) = u.testBit i := by
      have := Nat.testBit_shiftRight (i := k) (j := i - k) u
      rw [Nat.shiftRight_eq_div_pow] at this
      rw [this]
      congr 1
      omega
    rw [h1, h2]
    simp

/-! Value lemmas for the modelled JS operations. -/
theorem toUint32_jsAnd (x y : Int) :
    toUint32 (jsAnd x y) = toUint32 x &&& toUint32 y := by
  unfold jsAnd
  rw [toUint32_toInt32]
  exact toUint32_ofNat _ (Nat.and_lt_two_pow _ (toUint32_lt y))

theorem toUint32_jsOr (x y : Int) :
    toUint32 (jsOr x y) = toUint32 x ||| toUint32 y := by
  unfold jsOr
  rw [toUint32_toInt32]
  exact toUint32_ofNat _ (Nat.or_lt_two_pow (toUint32_lt x) (toUint32_lt y))

theorem toUint32_jsShrU (x : Int) (k : Nat) :
    toUint32 (jsShrU x k) = toUint32 x >>> (k % 32) := by
  unfold jsShrU
  refine toUint32_ofNat _ ?_
  rw [Nat.shiftRight_eq_div_pow]
  exact lt_of_le_of_lt (Nat.div_le_self _ _) (toUint32_lt x)

theorem toUint32_natCast (n : Nat) : toUint32 (n : Int) = n % 2 ^ 32 := by
  unfold toUint32
  have e : (2 : Int) ^ 32 = 4294967296 := by norm_num
  have e2 : (2 : Nat) ^ 32 = 4294967296 := by norm_num
  omega

theorem toUint32_jsShl (x : Int) (k : Nat) :
    toUint32 (jsShl x k) = (toUint32 x <<< (k % 32)) % 2 ^ 32 := by
  unfold jsShl
  rw [toUint32_toInt32, toUint32_natCast]

theorem toUint32_jsShrU_zero (x : Int) : toUint32 (jsShrU x 0) = toUint32 x := by
  rw [toUint32_jsShrU]
  simp

theorem nonneg_jsShrU (x : Int) (k : Nat) : (jsShrU x k).toNat = toUint32 x >>> (k % 32) := by
  unfold jsShrU
  exact Int.toNat_ofNat _

theorem jsShrU_eq_cast (x : Int) (k : Nat) :
    jsShrU x k = ((toUint32 (jsShrU x k) : Nat) : Int) := by
  have h : toUint32 x >>> (k % 32) < 2 ^ 32 := by
    rw [Nat.shiftRight_eq_div_pow]
    exact lt_of_le_of_lt (Nat.div_le_self _ _) (toUint32_lt x)
  unfold jsShrU
  rw [toUint32_natCast, Nat.mod_eq_of_lt h]

theorem jsOr_restate (x y : Int) :
    jsOr x y = toInt32 ((toUint32 (jsOr x y) : Nat) : Int) := by
  conv_lhs => unfold jsOr
  rw [toUint32_jsOr]

theorem toInt32_toNat_small (n : Nat) (h : n < 2 ^ 31) : (toInt32 (n : Int)).toNat = n := by
  rw [toInt32_coe n (lt_trans h (by norm_num)), if_pos h]
  exact Int.toNat_ofNat n

theorem toUint32_ipToInt (q : IPv4) (hq : q.valid) :
    toUint32 (ipToInt q) = q.a * 2 ^ 24 + q.b * 2 ^ 16 + q.c * 2 ^ 8 + q.d := by
  obtain ⟨ha, hb, hc, hd⟩ := hq
  unfold ipToInt
  rw [toUint32_jsOr, toUint32_jsOr, toUint32_jsOr]
  rw [toUint32_jsShl, toUint32_jsShl, toUint32_jsShl]
  rw [toUint32_ofNat q.a (by norm_num; omega), toUint32_ofNat q.b (by norm_num; omega),
    toUint32_ofNat q.c (by norm_num; omega), toUint32_ofNat q.d (by norm_num; omega)]
  simp only [Nat.shiftLeft_eq]
  norm_num
  have hma : q.a * 16777216 % 4294967296 = q.a * 16777216 := Nat.mod_eq_of_lt (by omega)
  have hmb : q.b * 65536 % 4294967296 = q.b * 65536 := Nat.mod_eq_of_lt (by omega)
  have hmc : q.c * 256 % 4294967296 = q.c * 256 := Nat.mod_eq_of_lt (by omega)
  rw [hma, hmb, hmc]
  have L1 := lor_high_low q.a (q.b * 65536) 24 (by norm_num; omega)
  norm_num at L1
  rw [L1]
  have L2 := lor_high_low (q.a * 256 + q.b) (q.c * 256) 16 (by norm_num; omega)
  norm_num at L2
  have e1 : q.a * 16777216 + q.b * 65536 = (q.a * 256 + q.b) * 65536 := by ring
  rw [e1, L2]
  have L3 := lor_high_low (q.a * 65536 + q.b * 256 + q.c) q.d 8 (by norm_num; omega)
  norm_num at L3
  have e2 : (q.a * 256 + q.b) * 65536 + q.c * 256
      = (q.a * 65536 + q.b * 256 + q.c) * 256 := by ring
  rw [e2, L3]

theorem ipToInt_restate (q : IPv4) :
    ipToInt q = toInt32 ((toUint32 (ipToInt q) : Nat) : Int) := by
  unfold ipToInt
  exact jsOr_restate _ _

theorem intToIp_bytes (x : Int) :
    intToIp x =
      { a := toUint32 x / 2 ^ 24 % 256
        b := toUint32 x / 2 ^ 16 % 256
        c := toUint32 x / 2 ^ 8 % 256
        d := toUint32 x % 256 } := by
  unfold intToIp jsAnd
  have h255 : toUint32 (255 : Int) = 255 := toUint32_ofNat 255 (by norm_num)
  have h255e : (255 : Nat) = 2 ^ 8 - 1 := by norm_num
  congr 1
  all_goals
    first
      | (rw [toUint32_jsShrU, h255, h255e, land_low, Nat.shiftRight_eq_div_pow]
         rw [toInt32_toNat_small _ (lt_of_lt_of_le (Nat.mod_lt _ (by norm_num)) (by norm_num))]
         norm_num)
      | (rw [h255, h255e, land_low]
         rw [toInt32_toNat_small _ (lt_of_lt_of_le (Nat.mod_lt _ (by norm_num)) (by norm_num))]
         norm_num)

theorem ipToInt_intToIp (x : Int) :
    ipToInt (intToIp x) = toInt32 ((toUint32 x : Nat) : Int) := by
  rw [intToIp_bytes]
  have hu := toUint32_lt x
  set u := toUint32 x with hu_def
  have hv : (IPv4.mk (u / 2 ^ 24 % 256) (u / 2 ^ 16 % 256) (u / 2 ^ 8 % 256) (u % 256)).valid := by
    refine ⟨?_, ?_, ?_, ?_⟩ <;> exact Nat.mod_lt _ (by norm_num)
  rw [ipToInt_restate, toUint32_ipToInt _ hv]
  congr 2
  simp only
  have e24 : (2 : Nat) ^ 24 = 16777216 := by norm_num
  have e16 : (2 : Nat) ^ 16 = 65536 := by norm_num
  have e8 : (2 : Nat) ^ 8 = 256 := by norm_num
  have e32 : (2 : Nat) ^ 32 = 4294967296 := by norm_num
  rw [e24, e16, e8] at *
  omega

theorem toUint32_neg_one : toUint32 (-1) = 2 ^ 32 - 1 := by
  unfold toUint32
  decide

theorem toUint32_cidrMask (N : Nat) (h1 : 1 ≤ N) (h2 : N ≤ 32) :
    toUint32 (cidrMask N) = 2 ^ 32 - 2 ^ (32 - N) := by
  unfold cidrMask
  rw [toUint32_jsShrU]
  simp only [Nat.zero_mod, Nat.shiftRight_zero]
  rw [toUint32_jsShl, toUint32_neg_one]
  set k := 32 - N with hk
  have hk31 : k ≤ 31 := by omega
  rw [Nat.mod_eq_of_lt (by omega : k < 32), Nat.shiftLeft_eq]
  have hp1 : (1 : Nat) ≤ 2 ^ k := Nat.one_le_two_pow
  have hp2 : 2 ^ k ≤ 2 ^ 32 := Nat.pow_le_pow_right (by norm_num) (by omega)
  have hdecomp : (2 ^ 32 - 1) * 2 ^ k = (2 ^ k - 1) * 2 ^ 32 + (2 ^ 32 - 2 ^ k) := by
    zify [hp1, hp2, le_trans hp1 hp2]
    ring
  rw [hdecomp, Nat.add_comm, Nat.add_mul_mod_self_right, Nat.mod_eq_of_lt (by omega)]

theorem cidrMask_eq_cast (N : Nat) :
    cidrMask N = ((toUint32 (cidrMask N) : Nat) : Int) := by
  unfold cidrMask
  exact jsShrU_eq_cast _ _

theorem network_ipToInt (q : IPv4) (N : Nat) (h1 : 1 ≤ N) (h2 : N ≤ 32) :
    ipToInt (getNetworkAddress q N)
      = toInt32 ((toUint32 (ipToInt q) / 2 ^ (32 - N) * 2 ^ (32 - N) : Nat) : Int) := by
  unfold getNetworkAddress
  rw [ipToInt_intToIp, toUint32_jsShrU_zero, toUint32_jsAnd, toUint32_cidrMask N h1 h2]
  rw [land_mask _ _ (toUint32_lt _) (by omega)]

theorem toUint32_jsNot_mask (N : Nat) (h1 : 1 ≤ N) (h2 : N ≤ 32) :
    toUint32 (jsNot (cidrMask N)) = 2 ^ (32 - N) - 1 := by
  rw [cidrMask_eq_cast, toUint32_cidrMask N h1 h2]
  unfold jsNot
  rw [toUint32_toInt32]
  set k := 32 - N with hk
  have hp1 : (1 : Nat) ≤ 2 ^ k := Nat.one_le_two_pow
  have hp2 : 2 ^ k ≤ 2 ^ 32 := Nat.pow_le_pow_right (by norm_num) (by omega)
  have hcast : (((2 ^ 32 - 2 ^ k : Nat) : Int)) = (2 ^ 32 : Int) - ((2 ^ k : Nat) : Int) := by
    rw [Nat.cast_sub hp2]
    push_cast
    ring
  rw [hcast]
  have harg : -((2 ^ 32 : Int) - ((2 ^ k : Nat) : Int)) - 1
      = (((2 ^ k - 1 : Nat) : Nat) : Int) - 2 ^ 32 := by
    push_cast [hp1]
    ring
  rw [harg, toUint32_sub_pow]
  exact toUint32_ofNat _ (by omega)

theorem broadcast_ipToInt (q : IPv4) (N : Nat) (h1 : 1 ≤ N) (h2 : N ≤ 32) :
    ipToInt (getBroadcastAddress q N)
      = toInt32 ((toUint32 (ipToInt q) / 2 ^ (32 - N) * 2 ^ (32 - N)
          + (2 ^ (32 - N) - 1) : Nat) : Int) := by
  unfold getBroadcastAddress
  rw [ipToInt_intToIp, toUint32_jsShrU_zero, toUint32_jsOr, toUint32_jsNot_mask N h1 h2]
  rw [lor_low_mask]

theorem toUint32_toInt32_add_one (m : Nat) (h : m + 1 < 2 ^ 32) :
    toUint32 (toInt32 (m : Int) + 1) = m + 1 := by
  rcases toInt32_spec (m : Int) with hc | hc <;> rw [hc]
  all_goals rw [toUint32_ofNat m (by omega)]
  · have e : ((m : Int) + 1) = ((m + 1 : Nat) : Int) := by push_cast; ring
    rw [e, toUint32_ofNat _ h]
  · have e : ((m : Int) - 2 ^ 32 + 1) = ((m + 1 : Nat) : Int) - 2 ^ 32 := by push_cast; ring
    rw [e, toUint32_sub_pow, toUint32_ofNat _ h]

theorem toUint32_toInt32_sub_one (m : Nat) (h0 : 1 ≤ m) (h : m < 2 ^ 32) :
    toUint32 (toInt32 (m : Int) - 1) = m - 1 := by
  rcases toInt32_spec (m : Int) with hc | hc <;> rw [hc]
  all_goals rw [toUint32_ofNat m h]
  · have e : ((m : Int) - 1) = ((m - 1 : Nat) : Int) := by
      rw [Nat.cast_sub h0]; push_cast; ring
    rw [e, toUint32_ofNat _ (by omega)]
  · have e : ((m : Int) - 2 ^ 32 - 1) = ((m - 1 : Nat) : Int) - 2 ^ 32 := by
      rw [Nat.cast_sub h0]; push_cast; ring
    rw [e, toUint32_sub_pow, toUint32_ofNat _ (by omega)]

theorem toInt32_block_eq (n K : Nat) (hK4 : 4 ≤ K) (hn : n + K ≤ 2 ^ 32)
    (hdich : n + K ≤ 2 ^ 31 ∨ 2 ^ 31 ≤ n) :
    toInt32 ((n + 1 : Nat) : Int) + (((K : Nat) : Int) - 2) - 1
      = toInt32 ((n + K - 2 : Nat) : Int) := by
  have e31 : (2 : Nat) ^ 31 = 2147483648 := by norm_num
  have e32 : (2 : Nat) ^ 32 = 4294967296 := by norm_num
  rw [toInt32_coe _ (by omega), toInt32_coe _ (by omega)]
  rcases hdich with hlo | hhi
  · rw [if_pos (by omega : n + 1 < 2 ^ 31), if_pos (by omega : n + K - 2 < 2 ^ 31)]
    push_cast
    omega
  · rw [if_neg (by omega : ¬ (n + 1 < 2 ^ 31)), if_neg (by omega : ¬ (n + K - 2 < 2 ^ 31))]
    have e32i : (2 : Int) ^ 32 = 4294967296 := by norm_num
    push_cast
    omega

/-- C9 (amended): for every valid CIDR `A.B.C.D/N` with `1 ≤ N ≤ 32` the
integer form of the computed network address has its low `32-N` bits zero,
and for `N ≤ 30` the computed range satisfies
`ipToInt(firstHost) + hostCount - 1 = ipToInt(lastHost)`.  The `N = 0` case
of the original claim fails because the ECMAScript shift count in
`(-1 << (32 - N))` is taken mod 32, making the `/0` mask all-ones. -/
theorem getCIDRRange_roundtrip_amended (q : IPv4) (hq : q.valid) (N : Nat)
    (h1 : 1 ≤ N) (h2 : N ≤ 32) :
    toUint32 (ipToInt (getNetworkAddress q N)) % 2 ^ (32 - N) = 0
    ∧ (N ≤ 30 →
        ipToInt (getCIDRRange q N).firstHost + (getCIDRRange q N).hostCount - 1
          = ipToInt (getCIDRRange q N).lastHost) := by
  have hU : toUint32 (ipToInt q) < 2 ^ 32 := toUint32_lt _
  have hnU : toUint32 (ipToInt q) / 2 ^ (32 - N) * 2 ^ (32 - N) ≤ toUint32 (ipToInt q) :=
    Nat.div_mul_le_self _ _
  have hnetv : toUint32 (ipToInt (getNetworkAddress q N))
      = toUint32 (ipToInt q) / 2 ^ (32 - N) * 2 ^ (32 - N) := by
    rw [network_ipToInt q N h1 h2, toUint32_toInt32,
      toUint32_ofNat _ (lt_of_le_of_lt hnU hU)]
  constructor
  · rw [hnetv]
    exact Nat.mul_mod_left _ _
  · intro h30
    have h4 : (4 : Nat) ≤ 2 ^ (32 - N) := by
      calc (4 : Nat) = 2 ^ 2 := by norm_num
      _ ≤ 2 ^ (32 - N) := Nat.pow_le_pow_right (by norm_num) (by omega)
    have hpk : (0 : Nat) < 2 ^ (32 - N) := by omega
    have hdivlt : toUint32 (ipToInt q) / 2 ^ (32 - N) < 2 ^ (32 - (32 - N)) := by
      rw [Nat.div_lt_iff_lt_mul hpk, ← pow_add]
      have e : 32 - (32 - N) + (32 - N) = 32 := by omega
      rw [e]
      exact hU
    have hn32 : toUint32 (ipToInt q) / 2 ^ (32 - N) * 2 ^ (32 - N) + 2 ^ (32 - N) ≤ 2 ^ 32 := by
      calc toUint32 (ipToInt q) / 2 ^ (32 - N) * 2 ^ (32 - N) + 2 ^ (32 - N)
          = (toUint32 (ipToInt q) / 2 ^ (32 - N) + 1) * 2 ^ (32 - N) := by ring
      _ ≤ 2 ^ (32 - (32 - N)) * 2 ^ (32 - N) := Nat.mul_le_mul_right _ hdivlt
      _ = 2 ^ 32 := by rw [← pow_add]; congr 1; omega
    have hdich : toUint32 (ipToInt q) / 2 ^ (32 - N) * 2 ^ (32 - N) + 2 ^ (32 - N) ≤ 2 ^ 31
        ∨ 2 ^ 31 ≤ toUint32 (ipToInt q) / 2 ^ (32 - N) * 2 ^ (32 - N) := by
      by_cases hc : toUint32 (ipToInt q) / 2 ^ (32 - N) * 2 ^ (32 - N) < 2 ^ 31
      · left
        have hdiv31 : toUint32 (ipToInt q) / 2 ^ (32 - N) < 2 ^ (31 - (32 - N)) := by
          by_contra hcon
          push_neg at hcon
          have hmul : 2 ^ (31 - (32 - N)) * 2 ^ (32 - N)
              ≤ toUint32 (ipToInt q) / 2 ^ (32 - N) * 2 ^ (32 - N) :=
            Nat.mul_le_mul_right _ hcon
          rw [← pow_add] at hmul
          have e : 31 - (32 - N) + (32 - N) = 31 := by omega
          rw [e] at hmul
          omega
        calc toUint32 (ipToInt q) / 2 ^ (32 - N) * 2 ^ (32 - N) + 2 ^ (32 - N)
            = (toUint32 (ipToInt q) / 2 ^ (32 - N) + 1) * 2 ^ (32 - N) := by ring
        _ ≤ 2 ^ (31 - (32 - N)) * 2 ^ (32 - N) := Nat.mul_le_mul_right _ hdiv31
        _ = 2 ^ 31 := by rw [← pow_add]; congr 1; omega
      · right; omega
    have hfirst : ipToInt (getCIDRRange q N).firstHost
        = toInt32 ((toUint32 (ipToInt q) / 2 ^ (32 - N) * 2 ^ (32 - N) + 1 : Nat) : Int) := by
      show ipToInt (intToIp (ipToInt (getNetworkAddress q N) + 1)) = _
      rw [network_ipToInt q N h1 h2, ipToInt_intToIp, toUint32_toInt32_add_one _ (by omega)]
    have hlast : ipToInt (getCIDRRange q N).lastHost
        = toInt32 ((toUint32 (ipToInt q) / 2 ^ (32 - N) * 2 ^ (32 - N) + 2 ^ (32 - N) - 2
            : Nat) : Int) := by
      show ipToInt (intToIp (ipToInt (getBroadcastAddress q N) - 1)) = _
      rw [broadcast_ipToInt q N h1 h2, ipToInt_intToIp,
        toUint32_toInt32_sub_one _ (by omega) (by omega)]
      congr 2
      omega
    have hcount : (getCIDRRange q N).hostCount = ((2 ^ (32 - N) : Nat) : Int) - 2 := by
      show getHostCount N = _
      unfold getHostCount
      push_cast
      ring
    rw [hfirst, hlast, hcount]
    exact toInt32_block_eq _ _ h4 hn32 hdich


set_option maxRecDepth 8000 in
/-- C9 (counterexample): on the valid CIDR `1.2.3.4/0` the claim fails:
the network address equals the input (low 32 bits not zero) and the
first/last-host equation is violated. -/
theorem getCIDRRange_n0_counterexample :
    (IPv4.mk 1 2 3 4).valid
    ∧ toUint32 (ipToInt (getNetworkAddress ⟨1, 2, 3, 4⟩ 0)) % 2 ^ (32 - 0) ≠ 0
    ∧ ipToInt (getCIDRRange ⟨1, 2, 3, 4⟩ 0).firstHost
        + (getCIDRRange ⟨1, 2, 3, 4⟩ 0).hostCount - 1
        ≠ ipToInt (getCIDRRange ⟨1, 2, 3, 4⟩ 0).lastHost := by
  exact ⟨by decide, by decide, by decide⟩

set_option maxRecDepth 8000 in
/-- C9 (witness): the amended round-trip theorem applied to the concrete
CIDR `192.168.1.77/24`. -/
theorem getCIDRRange_roundtrip_amended_witness :
    toUint32 (ipToInt (getNetworkAddress ⟨192, 168, 1, 77⟩ 24)) % 2 ^ (32 - 24) = 0
    ∧ (24 ≤ 30 →
        ipToInt (getCIDRRange ⟨192, 168, 1, 77⟩ 24).firstHost
          + (getCIDRRange ⟨192, 168, 1, 77⟩ 24).hostCount - 1
          = ipToInt (getCIDRRange ⟨192, 168, 1, 77⟩ 24).lastHost) :=
  getCIDRRange_roundtrip_amended ⟨192, 168, 1, 77⟩ (by decide) 24 (by decide) (by decide)

/-! ## The `Device` model (`src/models/Device.js`) -/

/-- An entry of a device's `ipv6` array: `{ address, type }`. -/
structure IPv6Entry where
  address : String
  type : String
deriving DecidableEq

/-- A service descriptor as produced by the scanners
(`{ port, protocol, service, version }`; the service name is irrelevant to
the claims but kept for fidelity). -/
structure Service where
  port : Nat
  protocol : String
  service : String
  version : String
deriving DecidableEq

/-- The canonical `Device` record.  Timestamps are `Nat` (see the header on
ISO-8601 strings). -/
structure Device where
  ip : Option String
  ipv4 : Option String
  ipv6 : List IPv6Entry
  mac : Option String
  hostname : Option String
  manufacturer : Option String
  os : Option String
  osVersion : Option String
  model : Option String
  usage : Option String
  ports : List Nat
  services : List Service
  sources : List String
  lastSeen : Nat
  firstSeen : Nat
  confidence : Nat
  workgroup : Option String
  fqdn : Option String
  discoveredVia : List String
deriving DecidableEq

/-- A raw `deviceData` object as fed to the `Device` constructor, `merge`
and the aggregators.  Absent (`undefined`) fields are `none`; `ipv6`
carries plain address strings (an absent `ipv6` and an empty array behave
identically in every consumer, so both are `[]`). -/
structure ObsData where
  ip : Option String := none
  ipv4 : Option String := none
  ipv6 : List String := []
  mac : Option String := none
  hostname : Option String := none
  manufacturer : Option String := none
  os : Option String := none
  osVersion : Option String := none
  model : Option String := none
  usage : Option String := none
  ports : Option (List Nat) := none
  services : Option (List Service) := none
  sources : Option (List String) := none
  lastSeen : Option Nat := none
  firstSeen : Option Nat := none
  confidence : Option Nat := none
  workgroup : Option String := none
  fqdn : Option String := none
  discoveredVia : Option (List String) := none
deriving DecidableEq

/-- JS `x || y` on a numeric field (`0` and `undefined` are falsy). -/
def jsOrNat (o : Option Nat) (dflt : Nat) : Nat :=
  match o with
  | some n => if n = 0 then dflt else n
  | none => dflt

/-- `Device._normalizeIPv6Array` on an array of address strings: attach the
classified type (the `.filter(Boolean)` of the source never drops the
produced objects). -/
def normalizeIPv6Array (ipv6 : List String) : List IPv6Entry :=
  ipv6.map (fun addr => ⟨addr, getIPv6Type addr⟩)

/-- `Device._calculateConfidence`. -/
def Device.calculateConfidence (d : Device) : Nat :=
  let s :=
    (if d.ip.isSome || d.ipv4.isSome then 15 else 0)
    + (if d.ipv6.length > 0 then 10 else 0)
    + (if d.mac.isSome then 20 else 0)
    + (if d.hostname.isSome then 10 else 0)
    + (if d.manufacturer.isSome then 10 else 0)
    + (if d.os.isSome then 15 else 0)
    + (if d.model.isSome then 10 else 0)
    + (if d.usage.isSome then 10 else 0)
    + (if d.ports.length > 0 then 5 else 0)
    + (if (d.ip.isSome || d.ipv4.isSome) && d.ipv6.length > 0 then 5 else 0)
  min s 100

/-- The `Device` constructor (`new Device(data)`); `now` is the
`new Date().toISOString()` at construction time. -/
def Device.new (now : Nat) (data : ObsData) : Device :=
  let base : Device :=
    { ip := data.ip
      ipv4 := data.ipv4 <|> data.ip
      ipv6 := normalizeIPv6Array data.ipv6
      mac := data.mac.map normalizeMac
      hostname := data.hostname
      manufacturer := data.manufacturer
      os := data.os
      osVersion := data.osVersion
      model := data.model
      usage := data.usage
      ports := data.ports.getD []
      services := data.services.getD []
      sources := data.sources.getD []
      lastSeen := jsOrNat data.lastSeen now
      firstSeen := jsOrNat data.firstSeen now
      confidence := 0
      workgroup := data.workgroup
      fqdn := data.fqdn
      discoveredVia := data.discoveredVia.getD [] }
  { base with confidence := jsOrNat data.confidence (Device.calculateConfidence base) }

/-- `Device.addIPv6`: push the classified address unless an entry with the
same textual address exists. -/
def Device.addIPv6 (d : Device) (addr : String) : Device :=
  let normalized : IPv6Entry := ⟨addr, getIPv6Type addr⟩
  if d.ipv6.any (fun v6 => v6.address == normalized.address) then d
  else { d with ipv6 := d.ipv6 ++ [normalized] }

/-- JS `[...new Set([...a, ...b])]` keeps the first occurrence of each
element in order. -/
def jsSetUnion {α : Type} [BEq α] (l : List α) : List α :=
  l.foldl (fun acc x => if acc.contains x then acc else acc ++ [x]) []

/-- The scalar-field block of `Device.merge`: each scalar takes the
observation's value when it is non-empty (`data.x || this.x`), `mac` is
normalised. -/
def Device.mergeScalars (d : Device) (data : ObsData) : Device :=
  { d with
    ip := data.ip <|> d.ip
    ipv4 := data.ipv4 <|> data.ip <|> d.ipv4
    mac := match data.mac with
      | some m => some (normalizeMac m)
      | none => d.mac
    hostname := data.hostname <|> d.hostname
    manufacturer := data.manufacturer <|> d.manufacturer
    os := data.os <|> d.os
    osVersion := data.osVersion <|> d.osVersion
    model := data.model <|> d.model
    usage := data.usage <|> d.usage
    workgroup := data.workgroup <|> d.workgroup
    fqdn := data.fqdn <|> d.fqdn }

/-- `Device.merge(other)`: scalar block as above, `ipv6` entries added with
textual dedup, `ports`/`sources`/`discoveredVia` set-unions, `services` a
plain append, `lastSeen` set to the observation's timestamp (or the merge
time), confidence recomputed. -/
def Device.merge (now : Nat) (d : Device) (data : ObsData) : Device :=
  let d1 := Device.mergeScalars d data
  let d2 := data.ipv6.foldl Device.addIPv6 d1
  let d3 := match data.ports with
    | some ps => { d2 with ports := jsSetUnion (d2.ports ++ ps) }
    | none => d2
  let d4 := match data.services with
    | some sv => { d3 with services := d3.services ++ sv }
    | none => d3
  let d5 := match data.sources with
    | some ss => { d4 with sources := jsSetUnion (d4.sources ++ ss) }
    | none => d4
  let d6 := match data.discoveredVia with
    | some dv => { d5 with discoveredVia := jsSetUnion (d5.discoveredVia ++ dv) }
    | none => d5
  let d7 := { d6 with lastSeen := jsOrNat data.lastSeen now }
  { d7 with confidence := Device.calculateConfidence d7 }

example :
    (Device.new 7 { ip := some "10.0.0.1", hostname := some "router" }).hostname
      = some "router" := by decide
example :
    (Device.new 7 { ip := some "10.0.0.1" }).firstSeen = 7 := by decide

/-! ## C2 / C4 / C5: merge behaviour -/

/-- `addIPv6` only ever appends to the `ipv6` array. -/
theorem addIPv6_spec (d : Device) (x : String) :
    ∃ t : List IPv6Entry, Device.addIPv6 d x = { d with ipv6 := d.ipv6 ++ t } := by
  unfold Device.addIPv6
  by_cases hx : (d.ipv6.any fun v6 => v6.address == x) = true
  · exact ⟨[], by rw [if_pos hx]; simp⟩
  · exact ⟨[⟨x, getIPv6Type x⟩], by rw [if_neg hx]⟩

/-- Folding `addIPv6` over any address list only appends to `ipv6`. -/
theorem foldl_addIPv6_spec :
    ∀ (l : List String) (d : Device),
      ∃ t : List IPv6Entry, l.foldl Device.addIPv6 d = { d with ipv6 := d.ipv6 ++ t } := by
  intro l
  induction l with
  | nil => intro d; exact ⟨[], by simp⟩
  | cons x xs ih =>
    intro d
    rw [List.foldl_cons]
    obtain ⟨t0, h0⟩ := addIPv6_spec d x
    obtain ⟨t, ht⟩ := ih (Device.addIPv6 d x)
    rw [h0] at ht
    refine ⟨t0 ++ t, ?_⟩
    rw [h0, ht]
    simp

/-- Projections of `Device.merge`: the scalar block is `mergeScalars`, the
timestamps and append-only services behave as stated. -/
theorem Device.merge_fields (now : Nat) (d : Device) (data : ObsData) :
    (Device.merge now d data).hostname = (data.hostname <|> d.hostname)
    ∧ (Device.merge now d data).mac
        = (match data.mac with | some m => some (normalizeMac m) | none => d.mac)
    ∧ (Device.merge now d data).firstSeen = d.firstSeen
    ∧ (Device.merge now d data).lastSeen = jsOrNat data.lastSeen now
    ∧ (Device.merge now d data).services = d.services ++ data.services.getD []
    ∧ (Device.merge now d data).ipv4 = (data.ipv4 <|> data.ip <|> d.ipv4)
    ∧ (Device.merge now d data).ipv6
        = (data.ipv6.foldl Device.addIPv6 (Device.mergeScalars d data)).ipv6 := by
  unfold Device.merge
  obtain ⟨t, ht⟩ := foldl_addIPv6_spec data.ipv6 (Device.mergeScalars d data)
  cases hp : data.ports <;> cases hs : data.services <;>
    cases hso : data.sources <;> cases hd : data.discoveredVia <;>
    simp only [ht] <;> simp [Device.mergeScalars]

set_option maxRecDepth 2000 in
/-- C2: the claim (and spec §4.6, §9) says a non-empty scalar of the record
is retained; the code's `data.hostname || this.hostname` lets the
observation overwrite it.  With `R.hostname = "router"` and
`O.hostname = "gateway"` the merged hostname is `"gateway"`, not
`"router"`. -/
theorem device_merge_scalar_overwrite :
    (Device.merge 11
        (Device.new 10 { ip := some "192.168.1.1", hostname := some "router" })
        { hostname := some "gateway" }).hostname = some "gateway"
    ∧ (Device.merge 11
        (Device.new 10 { ip := some "192.168.1.1", hostname := some "router" })
        { hostname := some "gateway" }).hostname ≠ some "router" := by
  exact ⟨by decide, by decide⟩

set_option maxRecDepth 2000 in
/-- C4 (counterexample): `merge` does not take the maximum of the existing
`last_seen` and the observation timestamp; an observation carrying an
earlier timestamp moves `last_seen` backwards, below `first_seen`. -/
theorem device_merge_lastSeen_counterexample :
    (Device.merge 12 (Device.new 10 { ip := some "10.0.0.1" })
        { lastSeen := some 5 }).lastSeen = 5
    ∧ (Device.new 10 { ip := some "10.0.0.1" }).lastSeen = 10
    ∧ (Device.merge 12 (Device.new 10 { ip := some "10.0.0.1" })
        { lastSeen := some 5 }).lastSeen
        ≠ max (Device.new 10 { ip := some "10.0.0.1" }).lastSeen 5
    ∧ ¬ ((Device.merge 12 (Device.new 10 { ip := some "10.0.0.1" })
          { lastSeen := some 5 }).firstSeen
        ≤ (Device.merge 12 (Device.new 10 { ip := some "10.0.0.1" })
          { lastSeen := some 5 }).lastSeen) := by
  exact ⟨by decide, by decide, by decide, by decide⟩

/-- C4 (amended): after record creation `merge` leaves `first_seen`
unchanged and sets `last_seen` to the observation's timestamp when present
(otherwise to the merge time) — not to the maximum — so
`first_seen ≤ last_seen` is preserved only when that timestamp is not
earlier than `first_seen`. -/
theorem device_merge_timestamps_amended (now : Nat) (d : Device) (data : ObsData) :
    (Device.merge now d data).firstSeen = d.firstSeen
    ∧ (Device.merge now d data).lastSeen = jsOrNat data.lastSeen now
    ∧ (d.firstSeen ≤ jsOrNat data.lastSeen now →
        (Device.merge now d data).firstSeen ≤ (Device.merge now d data).lastSeen) := by
  obtain ⟨-, -, hf, hl, -, -⟩ := Device.merge_fields now d data
  exact ⟨hf, hl, fun h => by rw [hf, hl]; exact h⟩

set_option maxRecDepth 2000 in
/-- C4 (witness): the amended theorem applied at a concrete record and
observation. -/
theorem device_merge_timestamps_amended_witness :
    (Device.merge 12 (Device.new 10 { ip := some "10.0.0.1" })
        { lastSeen := some 15 }).firstSeen
      = (Device.new 10 { ip := some "10.0.0.1" }).firstSeen
    ∧ (Device.merge 12 (Device.new 10 { ip := some "10.0.0.1" })
        { lastSeen := some 15 }).lastSeen = jsOrNat (some 15) 12
    ∧ ((Device.new 10 { ip := some "10.0.0.1" }).firstSeen ≤ jsOrNat (some 15) 12 →
        (Device.merge 12 (Device.new 10 { ip := some "10.0.0.1" })
          { lastSeen := some 15 }).firstSeen
        ≤ (Device.merge 12 (Device.new 10 { ip := some "10.0.0.1" })
          { lastSeen := some 15 }).lastSeen) :=
  device_merge_timestamps_amended 12 (Device.new 10 { ip := some "10.0.0.1" })
    { lastSeen := some 15 }

set_option maxRecDepth 2000 in
/-- C5 (counterexample): merging appends service descriptors without
collapsing duplicates on `(port, protocol)`: after merging an observation
whose service shares `(80, tcp)` with the record's, the record holds two
`(80, tcp)` entries. -/
theorem device_merge_services_counterexample :
    (Device.merge 1
        (Device.new 0 { ip := some "10.0.0.2",
                        services := some [⟨80, "tcp", "http", "1"⟩] })
        { services := some [⟨80, "tcp", "http", "1.2.3"⟩] }).services
      = [⟨80, "tcp", "http", "1"⟩, ⟨80, "tcp", "http", "1.2.3"⟩]
    ∧ ((Device.merge 1
        (Device.new 0 { ip := some "10.0.0.2",
                        services := some [⟨80, "tcp", "http", "1"⟩] })
        { services := some [⟨80, "tcp", "http", "1.2.3"⟩] }).services.countP
          (fun s => s.port == 80 && s.protocol == "tcp")) = 2 := by
  exact ⟨by decide, by decide⟩

/-- C5 (amended): `merge` appends the observation's service descriptors to
the record's list verbatim; no duplicate collapsing on `(port, protocol)`
and no version-string preference takes place. -/
theorem device_merge_services_amended (now : Nat) (d : Device) (data : ObsData) :
    (Device.merge now d data).services = d.services ++ data.services.getD [] :=
  (Device.merge_fields now d data).2.2.2.2.1

/-! ## Enrichment (`enrichDevice`, shared by both aggregators)

`enrichDevice` consults three classifiers (`manufacturerResolver.resolve`,
`osDetector.detect`, `usageInferrer.infer`).  The aggregator model is
parametric in them (structure `Resolvers`); the usage classifier is also
modelled concretely below for C6. -/

/-- Result of `usageInferrer.infer`. -/
structure InferResult where
  usage : String
  confidence : Nat
deriving DecidableEq

/-- The three classifiers consulted by `enrichDevice`.  `detectOs` returns
`(osInfo.os, osInfo.osVersion)`. -/
structure Resolvers where
  resolveManufacturer : String → Option String
  detectOs : Device → Option String × Option String
  inferUsage : Device → InferResult

/-- `if (device.mac && !device.manufacturer) { … }` step of
`enrichDevice`. -/
def enrichManufacturerStep (R : Resolvers) (d : Device) : Device :=
  match d.mac, d.manufacturer with
  | some m, none =>
    match R.resolveManufacturer m with
    | some v => { d with manufacturer := some v }
    | none => d
  | _, _ => d

/-- `if (!device.os) { … }` step of `enrichDevice`. -/
def enrichOsStep (R : Resolvers) (d : Device) : Device :=
  match d.os with
  | none =>
    match R.detectOs d with
    | (some os, ver) => { d with os := some os, osVersion := ver }
    | (none, _) => d
  | some _ => d

/-- `if (!device.usage) { … }` step of `enrichDevice`: the usage is set
only when the inferred usage is truthy and its confidence exceeds 30. -/
def enrichUsageStep (R : Resolvers) (d : Device) : Device :=
  match d.usage with
  | none =>
    let info := R.inferUsage d
    if info.usage ≠ "" ∧ 30 < info.confidence then { d with usage := some info.usage }
    else d
  | some _ => d

/-- `enrichDevice` (identical in both aggregator variants): the three
steps in order, then `updateConfidence`. -/
def enrichDevice (R : Resolvers) (d : Device) : Device :=
  let d3 := enrichUsageStep R (enrichOsStep R (enrichManufacturerStep R d))
  { d3 with confidence := Device.calculateConfidence d3 }

/-- `enrichManufacturerStep` only (possibly) sets `manufacturer`. -/
theorem enrichManufacturerStep_spec (R : Resolvers) (d : Device) :
    ∃ v, enrichManufacturerStep R d = { d with manufacturer := v } := by
  unfold enrichManufacturerStep
  split
  · split
    · exact ⟨_, rfl⟩
    · exact ⟨d.manufacturer, rfl⟩
  · exact ⟨d.manufacturer, rfl⟩

/-- `enrichOsStep` only (possibly) sets `os` and `osVersion`. -/
theorem enrichOsStep_spec (R : Resolvers) (d : Device) :
    ∃ o v, enrichOsStep R d = { d with os := o, osVersion := v } := by
  unfold enrichOsStep
  split
  · split
    · exact ⟨_, _, rfl⟩
    · exact ⟨d.os, d.osVersion, rfl⟩
  · exact ⟨d.os, d.osVersion, rfl⟩

/-- `enrichUsageStep` only (possibly) sets `usage`. -/
theorem enrichUsageStep_spec (R : Resolvers) (d : Device) :
    ∃ u, enrichUsageStep R d = { d with usage := u } := by
  unfold enrichUsageStep
  split
  · dsimp only
    split
    · exact ⟨_, rfl⟩
    · exact ⟨d.usage, rfl⟩
  · exact ⟨d.usage, rfl⟩

/-- `enrichDevice` only (possibly) sets classification fields and the
confidence. -/
theorem enrichDevice_spec (R : Resolvers) (d : Device) :
    ∃ mf o v u c,
      enrichDevice R d
        = { d with manufacturer := mf, os := o, osVersion := v,
                   usage := u, confidence := c } := by
  unfold enrichDevice
  obtain ⟨mf, h1⟩ := enrichManufacturerStep_spec R d
  obtain ⟨o, v, h2⟩ := enrichOsStep_spec R (enrichManufacturerStep R d)
  obtain ⟨u, h3⟩ := enrichUsageStep_spec R (enrichOsStep R (enrichManufacturerStep R d))
  rw [h3, h2, h1]
  exact ⟨mf, o, v, u, _, rfl⟩

/-- Enrichment never touches identifiers, addresses, hostname,
timestamps or collections. -/
theorem enrichDevice_preserves (R : Resolvers) (d : Device) :
    (enrichDevice R d).ip = d.ip ∧ (enrichDevice R d).ipv4 = d.ipv4
    ∧ (enrichDevice R d).ipv6 = d.ipv6 ∧ (enrichDevice R d).mac = d.mac
    ∧ (enrichDevice R d).hostname = d.hostname
    ∧ (enrichDevice R d).firstSeen = d.firstSeen
    ∧ (enrichDevice R d).lastSeen = d.lastSeen
    ∧ (enrichDevice R d).ports = d.ports
    ∧ (enrichDevice R d).services = d.services := by
  obtain ⟨mf, o, v, u, c, h⟩ := enrichDevice_spec R d
  rw [h]
  exact ⟨rfl, rfl, rfl, rfl, rfl, rfl, rfl, rfl, rfl⟩

/-! ## JS `Map` as an insertion-ordered association list -/

/-- `Map.get`. -/
def mget {α : Type} (m : List (String × α)) (k : String) : Option α :=
  (m.find? (fun p => p.1 == k)).map (fun p => p.2)

/-- `Map.set`: replace in place when the key exists, else append. -/
def mset {α : Type} (m : List (String × α)) (k : String) (v : α) : List (String × α) :=
  if (m.find? (fun p => p.1 == k)).isSome then
    m.map (fun p => if p.1 == k then (p.1, v) else p)
  else m ++ [(k, v)]

/-! ## The MAC-keyed aggregator (`src/unnamed/part_008`) -/

namespace MacAgg

/-- The aggregator state: `devices` keyed by `mac:`/`ipv4:`/`ipv6:`-tagged
keys, plus the IPv4 and IPv6 secondary indexes mapping addresses to
keys. -/
structure Store where
  devices : List (String × Device)
  ipv4Index : List (String × String)
  ipv6Index : List (String × String)

def emptyStore : Store := ⟨[], [], []⟩

/-- `_getDeviceKey`: MAC preferred, then IPv4, then first IPv6. -/
def getDeviceKey (data : ObsData) : Option String :=
  match data.mac with
  | some m => some ("mac:" ++ normalizeMac m)
  | none =>
    match data.ipv4 <|> data.ip with
    | some v => some ("ipv4:" ++ v)
    | none =>
      match data.ipv6 with
      | addr :: _ => some ("ipv6:" ++ addr)
      | [] => none

/-- `_findExistingDevice`: MAC key in `devices`, then the IPv4 index, then
each IPv6 address through the IPv6 index; the first hit wins. -/
def findExistingDevice (s : Store) (data : ObsData) : Option (Device × String) :=
  let byMac : Option (Device × String) :=
    match data.mac with
    | some m =>
      match mget s.devices ("mac:" ++ normalizeMac m) with
      | some dev => some (dev, "mac:" ++ normalizeMac m)
      | none => none
    | none => none
  match byMac with
  | some r => some r
  | none =>
    let byV4 : Option (Device × String) :=
      match data.ipv4 <|> data.ip with
      | some ip4 =>
        match mget s.ipv4Index ip4 with
        | some key =>
          match mget s.devices key with
          | some dev => some (dev, key)
          | none => none
        | none => none
      | none => none
    match byV4 with
    | some r => some r
    | none =>
      data.ipv6.findSome? (fun addr =>
        match mget s.ipv6Index addr with
        | some key =>
          match mget s.devices key with
          | some dev => some (dev, key)
          | none => none
        | none => none)

/-- `_updateIndexes`: point the device's IPv4 and every IPv6 address at
`key`.  The `devices` map itself (which doubles as the MAC index) is not
updated. -/
def updateIndexes (s : Store) (key : String) (d : Device) : Store :=
  let s1 := match d.ipv4 <|> d.ip with
    | some v => { s with ipv4Index := mset s.ipv4Index v key }
    | none => s
  d.ipv6.foldl (fun acc v6 => { acc with ipv6Index := mset acc.ipv6Index v6.address key }) s1

/-- The merge-and-enrich path shared by the branches of `addDevice` /
`updateDevice` (the JS code mutates the stored object in place; here the
map entry is rewritten after each mutation). -/
def mergePath (R : Resolvers) (now : Nat) (s : Store) (key : String) (dev : Device)
    (data : ObsData) : Option Device × Store :=
  let merged := Device.merge now dev data
  let s1 := { s with devices := mset s.devices key merged }
  let s2 := updateIndexes s1 key merged
  let enriched := enrichDevice R merged
  (some enriched, { s2 with devices := mset s2.devices key enriched })

/-- `addDevice`. -/
def addDevice (R : Resolvers) (now : Nat) (s : Store) (data : ObsData) :
    Option Device × Store :=
  match findExistingDevice s data with
  | some (dev, key) => mergePath R now s key dev data
  | none =>
    match getDeviceKey data with
    | none => (none, s)
    | some key =>
      match mget s.devices key with
      | some dev => mergePath R now s key dev data
      | none =>
        let dev := Device.new now data
        let s1 := { s with devices := mset s.devices key dev }
        let s2 := updateIndexes s1 key dev
        let enriched := enrichDevice R dev
        (some enriched, { s2 with devices := mset s2.devices key enriched })

/-- `updateDevice`: merge when any identifier matches, otherwise
`addDevice`. -/
def updateDevice (R : Resolvers) (now : Nat) (s : Store) (data : ObsData) :
    Option Device × Store :=
  match findExistingDevice s data with
  | some (dev, key) => mergePath R now s key dev data
  | none => addDevice R now s data

end MacAgg

/-! ## The IP-keyed aggregator (`src/analyzers/DataAggregator.js`) -/

namespace IpAgg

/-- `addDevice`: the id is `deviceData.ip || deviceData.mac`; a device
without either is warned about and dropped (`null`). -/
def addDevice (R : Resolvers) (now : Nat) (s : List (String × Device))
    (data : ObsData) : Option Device × List (String × Device) :=
  match data.ip <|> data.mac with
  | none => (none, s)
  | some id =>
    match mget s id with
    | some dev =>
      let merged := Device.merge now dev data
      let s1 := mset s id merged
      let enriched := enrichDevice R merged
      (some enriched, mset s1 id enriched)
    | none =>
      let dev := Device.new now data
      let s1 := mset s id dev
      let enriched := enrichDevice R dev
      (some enriched, mset s1 id enriched)

/-- `updateDevice`: merge when the id is present, otherwise `addDevice`;
returns `null` without an id. -/
def updateDevice (R : Resolvers) (now : Nat) (s : List (String × Device))
    (data : ObsData) : Option Device × List (String × Device) :=
  match data.ip <|> data.mac with
  | none => (none, s)
  | some id =>
    match mget s id with
    | some dev =>
      let merged := Device.merge now dev data
      let s1 := mset s id merged
      let enriched := enrichDevice R merged
      (some enriched, mset s1 id enriched)
    | none => addDevice R now s data

end IpAgg

/-- Stub classifiers used to run the aggregator on concrete inputs in
closed theorems; `addDevice`'s identifier handling is independent of the
classifier results (`enrichDevice_preserves`). -/
def stubResolvers : Resolvers :=
  ⟨fun _ => none, fun _ => (none, none), fun _ => ⟨"", 0⟩⟩

/-- The store after ingesting the C3 failing-input sequence
`(ipv4=192.168.1.20)`, `(ipv4=192.168.1.20, mac=11:22:33:44:55:66)`,
`(mac=11:22:33:44:55:66)` into an empty MAC-keyed aggregator. -/
def c3FailStore : MacAgg.Store :=
  (MacAgg.addDevice stubResolvers 3
    (MacAgg.addDevice stubResolvers 2
      (MacAgg.addDevice stubResolvers 1 MacAgg.emptyStore
        { ipv4 := some "192.168.1.20" }).2
      { ipv4 := some "192.168.1.20", mac := some "11:22:33:44:55:66" }).2
    { mac := some "11:22:33:44:55:66" }).2

set_option maxRecDepth 8000 in
/-- C3: failing input for the uniqueness invariant.  The second
observation merges the MAC into the IPv4-keyed record without re-keying
it, so the third observation finds no `mac:`-keyed record and creates a
second one: two stored records bear the same MAC, and the two
merge-equivalent records are never unified. -/
theorem macAgg_duplicate_mac_on_late_link :
    c3FailStore.devices.length = 2
    ∧ c3FailStore.devices.countP
        (fun kd => kd.2.mac == some "11:22:33:44:55:66") = 2 := by
  exact ⟨by decide, by decide⟩

/-- C10: in the IP-keyed aggregator, an observation without `ip` and
without `mac` — regardless of any IPv6 addresses or other fields it
carries — makes both `addDevice` and `updateDevice` return `null` and
leave the store untouched. -/
theorem ipAgg_drops_ipv6_only (R : Resolvers) (now : Nat)
    (s : List (String × Device)) (data : ObsData)
    (hip : data.ip = none) (hmac : data.mac = none) :
    IpAgg.addDevice R now s data = (none, s)
    ∧ IpAgg.updateDevice R now s data = (none, s) := by
  unfold IpAgg.addDevice IpAgg.updateDevice
  rw [hip, hmac]
  exact ⟨rfl, rfl⟩

set_option maxRecDepth 2000 in
/-- C10 (witness): an IPv6-only observation is dropped even against a
non-empty store. -/
theorem ipAgg_drops_ipv6_only_witness :
    IpAgg.addDevice stubResolvers 5
        [("10.0.0.9", Device.new 1 { ip := some "10.0.0.9" })]
        { ipv6 := ["fe80::1"], hostname := some "printer" }
      = (none, [("10.0.0.9", Device.new 1 { ip := some "10.0.0.9" })])
    ∧ IpAgg.updateDevice stubResolvers 5
        [("10.0.0.9", Device.new 1 { ip := some "10.0.0.9" })]
        { ipv6 := ["fe80::1"], hostname := some "printer" }
      = (none, [("10.0.0.9", Device.new 1 { ip := some "10.0.0.9" })]) :=
  ipAgg_drops_ipv6_only stubResolvers 5
    [("10.0.0.9", Device.new 1 { ip := some "10.0.0.9" })]
    { ipv6 := ["fe80::1"], hostname := some "printer" } rfl rfl

theorem mset_nil {α : Type} (k : String) (v : α) : mset [] k v = [(k, v)] := rfl

theorem mset_single_same {α : Type} (k : String) (v w : α) :
    mset [(k, v)] k w = [(k, w)] := by
  simp [mset, List.find?]

theorem mget_single_same {α : Type} (k : String) (v : α) : mget [(k, v)] k = some v := by
  simp [mget, List.find?]

theorem updateIndexes_devices (s : MacAgg.Store) (key : String) (d : Device) :
    (MacAgg.updateIndexes s key d).devices = s.devices := by
  unfold MacAgg.updateIndexes
  have haux : ∀ (l : List IPv6Entry) (acc : MacAgg.Store),
      (l.foldl (fun acc v6 =>
        { acc with ipv6Index := mset acc.ipv6Index v6.address key }) acc).devices
        = acc.devices := by
    intro l
    induction l with
    | nil => intro acc; rfl
    | cons x xs ih =>
      intro acc
      rw [List.foldl_cons]
      exact ih _
  cases h : (d.ipv4 <|> d.ip) <;> simp [haux]

/-- `addDevice` reduces to the merge path when an identifier matches. -/
theorem macAgg_addDevice_found (R : Resolvers) (now : Nat) (s : MacAgg.Store)
    (data : ObsData) (dev : Device) (key : String)
    (h : MacAgg.findExistingDevice s data = some (dev, key)) :
    MacAgg.addDevice R now s data = MacAgg.mergePath R now s key dev data := by
  unfold MacAgg.addDevice
  rw [h]

/-- C1: ingesting `(mac=M, ipv4=A)` and then `(mac=M, ipv6=[X])` into an
empty MAC-keyed aggregator leaves exactly one stored record — keyed by the
normalised MAC — and it carries both the IPv4 address `A` and the IPv6
address `X`.  Stated for arbitrary classifier functions `R`, timestamps
and address strings. -/
theorem macAgg_dualstack_stitch (R : Resolvers) (now1 now2 : Nat) (M A X : String) :
    ∃ dev : Device,
      (MacAgg.addDevice R now2
          (MacAgg.addDevice R now1 MacAgg.emptyStore
            { mac := some M, ipv4 := some A }).2
          { mac := some M, ipv6 := [X] }).2.devices
        = [("mac:" ++ normalizeMac M, dev)]
      ∧ dev.mac = some (normalizeMac M)
      ∧ dev.ipv4 = some A
      ∧ X ∈ dev.ipv6.map IPv6Entry.address := by
  have hs1 : (MacAgg.addDevice R now1 MacAgg.emptyStore
        { mac := some M, ipv4 := some A }).2.devices
      = [("mac:" ++ normalizeMac M,
          enrichDevice R (Device.new now1 { mac := some M, ipv4 := some A }))] := by
    have h0 : (MacAgg.addDevice R now1 MacAgg.emptyStore
          { mac := some M, ipv4 := some A }).2.devices
        = mset [("mac:" ++ normalizeMac M,
              Device.new now1 { mac := some M, ipv4 := some A })]
            ("mac:" ++ normalizeMac M)
            (enrichDevice R (Device.new now1 { mac := some M, ipv4 := some A })) := rfl
    rw [h0, mset_single_same]
  have hfind2 : MacAgg.findExistingDevice
        (MacAgg.addDevice R now1 MacAgg.emptyStore
          { mac := some M, ipv4 := some A }).2
        { mac := some M, ipv6 := [X] }
      = some (enrichDevice R (Device.new now1 { mac := some M, ipv4 := some A }),
          "mac:" ++ normalizeMac M) := by
    simp only [MacAgg.findExistingDevice]
    rw [hs1, mget_single_same]
  have hs2 : (MacAgg.addDevice R now2
        (MacAgg.addDevice R now1 MacAgg.emptyStore
          { mac := some M, ipv4 := some A }).2
        { mac := some M, ipv6 := [X] }).2.devices
      = [("mac:" ++ normalizeMac M,
          enrichDevice R (Device.merge now2
            (enrichDevice R (Device.new now1 { mac := some M, ipv4 := some A }))
            { mac := some M, ipv6 := [X] }))] := by
    rw [macAgg_addDevice_found R now2 _ _ _ _ hfind2]
    show mset (MacAgg.updateIndexes _ _ _).devices _ _ = _
    rw [updateIndexes_devices]
    show mset (mset ((MacAgg.addDevice R now1 MacAgg.emptyStore
        { mac := some M, ipv4 := some A }).2.devices) _ _) _ _ = _
    rw [hs1, mset_single_same, mset_single_same]
  refine ⟨_, hs2, ?_, ?_, ?_⟩
  · rw [(enrichDevice_preserves R _).2.2.2.1,
      (Device.merge_fields now2 _ _).2.1]
  · rw [(enrichDevice_preserves R _).2.1,
      (Device.merge_fields now2 _ _).2.2.2.2.2.1,
      (enrichDevice_preserves R _).2.1]
    rfl
  · rw [(enrichDevice_preserves R _).2.2.1,
      (Device.merge_fields now2 _ _).2.2.2.2.2.2]
    have hip6 : (Device.mergeScalars
        (enrichDevice R (Device.new now1 { mac := some M, ipv4 := some A }))
        { mac := some M, ipv6 := [X] }).ipv6 = [] := by
      show (enrichDevice R (Device.new now1 { mac := some M, ipv4 := some A })).ipv6 = []
      rw [(enrichDevice_preserves R _).2.2.1]
      rfl
    show X ∈ (Device.addIPv6 (Device.mergeScalars _ _) X).ipv6.map IPv6Entry.address
    unfold Device.addIPv6
    rw [hip6]
    simp

/-! ## The usage classifier (`src/analyzers/UsageInferrer.js`) -/

namespace UsageInferrer

/-- `UsageTypes`, in definition (= `Object.entries`) order. -/
def usageTypes : List String :=
  ["Router/Gateway", "Switch", "Access Point", "Server", "Computer/Workstation",
   "Laptop", "Mobile Device", "IoT Device", "Smart Home Device", "Printer/Scanner",
   "TV/Media Device", "Gaming Console", "Storage/NAS", "Camera/Security", "Unknown"]

/-- `manufacturerPatterns` per category (categories without an entry give
no manufacturer score). -/
def manufacturerPatterns (cat : String) : List String :=
  if cat == "Router/Gateway" then
    ["cisco", "juniper", "netgear", "tp-link", "asus", "linksys", "ubiquiti",
     "d-link", "mikrotik"]
  else if cat == "Mobile Device" then
    ["apple", "samsung", "google", "huawei", "xiaomi", "oneplus"]
  else if cat == "IoT Device" then
    ["raspberry", "espressif", "arduino", "texas instruments"]
  else if cat == "Printer/Scanner" then
    ["hp", "canon", "epson", "brother", "lexmark", "xerox"]
  else if cat == "TV/Media Device" then
    ["samsung", "lg", "sony", "roku", "amazon"]
  else if cat == "Storage/NAS" then
    ["synology", "qnap", "western digital", "seagate"]
  else if cat == "Camera/Security" then
    ["hikvision", "dahua", "axis", "nest", "ring"]
  else []

/-- Case of `lit` followed by at least one digit somewhere in `s`
(the `\d+`-bearing alternatives such as `sw\d+`). -/
def hasLitDigit (s : List Char) (lit : List Char) : Bool :=
  anyTail (fun t =>
    startsW lit t &&
      (match t.drop lit.length with
       | c :: _ => c.isDigit
       | [] => false)) s

/-- `hostnamePatterns` per category, as case-insensitive matchers (the
`/i` regexes become substring tests on the lowercased hostname;
`x[-_]?y` expands to its three spellings). -/
def hostnameMatches (cat : String) (hostname : String) : Bool :=
  let h := strLower hostname
  if cat == "Router/Gateway" then
    containsSub h "router" || containsSub h "gateway" || containsSub h "gw"
      || containsSub h "firewall"
  else if cat == "Switch" then
    containsSub h "switch" || hasLitDigit h.data "sw".data
  else if cat == "Access Point" then
    hasLitDigit h.data "ap".data || containsSub h "accesspoint"
      || containsSub h "access-point" || containsSub h "access_point"
      || containsSub h "wifi"
  else if cat == "Server" then
    containsSub h "server" || containsSub h "srv" || containsSub h "web"
      || containsSub h "mail" || containsSub h "db" || containsSub h "database"
  else if cat == "Computer/Workstation" then
    containsSub h "desktop" || containsSub h "pc" || containsSub h "workstation"
      || containsSub h "computer"
  else if cat == "Laptop" then
    containsSub h "laptop" || containsSub h "notebook" || containsSub h "macbook"
  else if cat == "Mobile Device" then
    containsSub h "iphone" || containsSub h "ipad" || containsSub h "android"
      || containsSub h "mobile" || containsSub h "phone" || containsSub h "tablet"
  else if cat == "IoT Device" then
    containsSub h "esp" || containsSub h "arduino" || containsSub h "pi"
      || containsSub h "iot" || containsSub h "sensor"
  else if cat == "Smart Home Device" then
    containsSub h "nest" || containsSub h "hue" || containsSub h "alexa"
      || containsSub h "echo" || containsSub h "googlehome"
      || containsSub h "google-home" || containsSub h "google_home"
  else if cat == "Printer/Scanner" then
    containsSub h "printer" || containsSub h "print" || containsSub h "scanner"
      || containsSub h "scan"
  else if cat == "TV/Media Device" then
    containsSub h "tv" || containsSub h "roku" || containsSub h "chromecast"
      || containsSub h "firestick" || containsSub h "appletv"
  else if cat == "Gaming Console" then
    containsSub h "xbox" || containsSub h "playstation" || hasLitDigit h.data "ps".data
      || containsSub h "nintendo" || containsSub h "switch"
  else if cat == "Storage/NAS" then
    containsSub h "nas" || containsSub h "storage" || containsSub h "fileserver"
  else if cat == "Camera/Security" then
    containsSub h "camera" || hasLitDigit h.data "cam".data || containsSub h "ipcam"
      || containsSub h "security"
  else false

/-- `portIndicators` per category. -/
def portIndicators (cat : String) : List Nat :=
  if cat == "Router/Gateway" then [53, 67, 68]
  else if cat == "Server" then [80, 443, 8080, 8443, 22]
  else if cat == "Computer/Workstation" then [445, 3389, 5900]
  else if cat == "Printer/Scanner" then [631, 9100, 515]
  else if cat == "Storage/NAS" then [139, 445, 2049, 873]
  else if cat == "IoT Device" then [1883, 8883]
  else if cat == "Camera/Security" then [554, 8000, 8080]
  else []

/-- The specific port-combination bonuses of `_scoreByPorts`, expressed per
category. -/
def portCombos (cat : String) (ports : List Nat) : Nat :=
  (if cat == "Server" && (ports.contains 80 || ports.contains 443) then 2 else 0)
  + (if (cat == "Server" || cat == "IoT Device")
        && (ports.contains 22 && !ports.contains 3389) then 1 else 0)
  + (if cat == "Computer/Workstation"
        && (ports.contains 3389 || ports.contains 445) then 3 else 0)
  + (if (cat == "Computer/Workstation" || cat == "Mobile Device")
        && ports.contains 5353 then 1 else 0)

/-- `_scoreByOS`, expressed per category: the if-else cascade selects one
OS family, which contributes to fixed categories. -/
def osScore (cat : String) (os : String) : Nat :=
  let l := strLower os
  if containsSub l "ios" || containsSub l "iphone" || containsSub l "ipad" then
    (if cat == "Mobile Device" then 6 else 0)
  else if containsSub l "android" then (if cat == "Mobile Device" then 6 else 0)
  else if containsSub l "windows" then (if cat == "Computer/Workstation" then 4 else 0)
  else if containsSub l "mac" || containsSub l "darwin" then
    (if cat == "Computer/Workstation" then 4 else 0)
  else if containsSub l "linux" || containsSub l "ubuntu" || containsSub l "debian" then
    (if cat == "Server" then 3 else if cat == "IoT Device" then 2 else 0)
  else if containsSub l "openwrt" || containsSub l "dd-wrt" then
    (if cat == "Router/Gateway" then 5 else 0)
  else if containsSub l "embedded" then (if cat == "IoT Device" then 4 else 0)
  else 0

/-- The total score of one category for a device: manufacturer matches
(+5 each), hostname pattern (+4), indicator ports (+2 each) and
combination bonuses when any port is known, and the OS contribution. -/
def scoreFor (d : Device) (cat : String) : Nat :=
  (match d.manufacturer with
   | some m =>
     5 * ((manufacturerPatterns cat).filter (fun p => containsSub (strLower m) p)).length
   | none => 0)
  + (match d.hostname with
     | some h => if hostnameMatches cat h then 4 else 0
     | none => 0)
  + (if d.ports.length > 0 then
      2 * ((portIndicators cat).filter (fun p => d.ports.contains p)).length
        + portCombos cat d.ports
     else 0)
  + (match d.os with
     | some os => osScore cat os
     | none => 0)

/-- The `maxScore`/`bestType` scan of `infer`: strict improvement over the
running best, starting from `(0, Unknown)`, in `usageTypes` order. -/
def bestPair (d : Device) : Nat × String :=
  usageTypes.foldl
    (fun best cat => if scoreFor d cat > best.1 then (scoreFor d cat, cat) else best)
    (0, "Unknown")

/-- `infer`: the winning category and
`Math.min((maxScore / 10) * 100, 100)`.  For the integer scores arising
here the IEEE-double expression `(s / 10) * 100` rounds to exactly `10·s`
whenever it is below the cap, so the confidence is `min (s * 10) 100`. -/
def infer (d : Device) : InferResult :=
  { usage := (bestPair d).2, confidence := min ((bestPair d).1 * 10) 100 }

end UsageInferrer

example :
    (UsageInferrer.infer (Device.new 0
      { ip := some "192.168.1.7", hostname := some "DESKTOP-ABC",
        ports := some [445, 3389] })).usage = "Computer/Workstation" := by decide
example :
    (UsageInferrer.infer (Device.new 0
      { ip := some "192.168.1.7" })).confidence = 0 := by decide

/-! ## C6: the enrichment threshold -/

theorem foldl_best_spec (f : String → Nat) :
    ∀ (l : List String) (p : Nat × String), f p.2 = p.1 →
      f (l.foldl (fun best cat => if f cat > best.1 then (f cat, cat) else best) p).2
          = (l.foldl (fun best cat => if f cat > best.1 then (f cat, cat) else best) p).1
      ∧ p.1 ≤ (l.foldl (fun best cat => if f cat > best.1 then (f cat, cat) else best) p).1
      ∧ (∀ c ∈ l, f c
          ≤ (l.foldl (fun best cat => if f cat > best.1 then (f cat, cat) else best) p).1)
      ∧ ((l.foldl (fun best cat => if f cat > best.1 then (f cat, cat) else best) p).2 = p.2
          ∨ (l.foldl (fun best cat => if f cat > best.1 then (f cat, cat) else best) p).2 ∈ l)
    := by
  intro l
  induction l with
  | nil => exact fun p hp => ⟨hp, le_refl _, by simp, Or.inl rfl⟩
  | cons x xs ih =>
    intro p hp
    rw [List.foldl_cons]
    by_cases hx : f x > p.1
    · rw [if_pos hx]
      obtain ⟨h1, h2, h3, h4⟩ := ih (f x, x) rfl
      refine ⟨h1, le_trans (le_of_lt hx) h2, ?_, ?_⟩
      · intro c hc
        rcases List.mem_cons.mp hc with hcx | hcs
        · subst hcx; exact h2
        · exact h3 c hcs
      · rcases h4 with h4 | h4
        · exact Or.inr (List.mem_cons.mpr (Or.inl h4))
        · exact Or.inr (List.mem_cons.mpr (Or.inr h4))
    · rw [if_neg hx]
      obtain ⟨h1, h2, h3, h4⟩ := ih p hp
      refine ⟨h1, h2, ?_, ?_⟩
      · intro c hc
        rcases List.mem_cons.mp hc with hcx | hcs
        · subst hcx; exact le_trans (Nat.le_of_not_lt hx) h2
        · exact h3 c hcs
      · rcases h4 with h4 | h4
        · exact Or.inl h4
        · exact Or.inr (List.mem_cons.mpr (Or.inr h4))

/-- No rule ever scores the `Unknown` category. -/
theorem scoreFor_unknown (d : Device) : UsageInferrer.scoreFor d "Unknown" = 0 := by
  unfold UsageInferrer.scoreFor
  rcases hm : d.manufacturer with - | m <;> rcases hh : d.hostname with - | h <;>
    rcases ho : d.os with - | os <;>
    simp [UsageInferrer.manufacturerPatterns, UsageInferrer.hostnameMatches,
      UsageInferrer.portIndicators, UsageInferrer.portCombos, UsageInferrer.osScore]

/-- The winner really is a best-scoring category: its score is the maximal
score, every listed category scores no more, and it is one of the listed
categories (or the `Unknown` start value). -/
theorem bestPair_spec (d : Device) :
    UsageInferrer.scoreFor d (UsageInferrer.bestPair d).2 = (UsageInferrer.bestPair d).1
    ∧ (∀ c ∈ UsageInferrer.usageTypes,
        UsageInferrer.scoreFor d c ≤ (UsageInferrer.bestPair d).1)
    ∧ (UsageInferrer.bestPair d).2 ∈ UsageInferrer.usageTypes := by
  obtain ⟨h1, _, h3, h4⟩ :=
    foldl_best_spec (UsageInferrer.scoreFor d) UsageInferrer.usageTypes
      (0, "Unknown") (scoreFor_unknown d)
  refine ⟨h1, h3, ?_⟩
  rcases h4 with h4 | h4
  · rw [show (UsageInferrer.bestPair d).2
        = (UsageInferrer.usageTypes.foldl
            (fun best cat =>
              if UsageInferrer.scoreFor d cat > best.1 then (UsageInferrer.scoreFor d cat, cat)
              else best) (0, "Unknown")).2 from rfl, h4]
    decide
  · exact h4

/-- The winning usage string is never empty (falsiness never blocks the
`usageInfo.usage && …` guard). -/
theorem bestPair_usage_ne_empty (d : Device) : (UsageInferrer.bestPair d).2 ≠ "" := by
  have hall : ∀ c ∈ UsageInferrer.usageTypes, c ≠ "" := by decide
  exact hall _ (bestPair_spec d).2.2

/-- The record state at which `enrichDevice` consults the usage
classifier: after the manufacturer and OS steps. -/
def enrichMid (R : Resolvers) (d : Device) : Device :=
  enrichOsStep R (enrichManufacturerStep R d)

theorem enrichMid_usage (R : Resolvers) (d : Device) (h : d.usage = none) :
    (enrichMid R d).usage = none := by
  obtain ⟨mf, h1⟩ := enrichManufacturerStep_spec R d
  obtain ⟨o, v, h2⟩ := enrichOsStep_spec R (enrichManufacturerStep R d)
  unfold enrichMid
  rw [h2, h1]
  exact h

/-- C6: with the concrete usage classifier plugged into enrichment, the
classifier scores every category, the winner attains the maximal score,
its confidence is `min(100, best · 10)`, and enrichment sets the `usage`
of a record whose usage is unset exactly when that confidence exceeds 30
(strictly); otherwise `usage` stays unset. -/
theorem enrichDevice_usage_threshold (mfr : String → Option String)
    (osd : Device → Option String × Option String) (d : Device)
    (h : d.usage = none) :
    ((enrichDevice ⟨mfr, osd, UsageInferrer.infer⟩ d).usage
        = if 30 < (UsageInferrer.infer
              (enrichMid ⟨mfr, osd, UsageInferrer.infer⟩ d)).confidence
          then some (UsageInferrer.infer
              (enrichMid ⟨mfr, osd, UsageInferrer.infer⟩ d)).usage
          else none)
    ∧ (UsageInferrer.infer (enrichMid ⟨mfr, osd, UsageInferrer.infer⟩ d)).confidence
        = min 100
            (10 * (UsageInferrer.bestPair (enrichMid ⟨mfr, osd, UsageInferrer.infer⟩ d)).1)
    ∧ (∀ c ∈ UsageInferrer.usageTypes,
        UsageInferrer.scoreFor (enrichMid ⟨mfr, osd, UsageInferrer.infer⟩ d) c
          ≤ (UsageInferrer.bestPair (enrichMid ⟨mfr, osd, UsageInferrer.infer⟩ d)).1)
    ∧ UsageInferrer.scoreFor (enrichMid ⟨mfr, osd, UsageInferrer.infer⟩ d)
          (UsageInferrer.infer (enrichMid ⟨mfr, osd, UsageInferrer.infer⟩ d)).usage
        = (UsageInferrer.bestPair (enrichMid ⟨mfr, osd, UsageInferrer.infer⟩ d)).1 := by
  have hmid : (enrichMid (⟨mfr, osd, UsageInferrer.infer⟩ : Resolvers) d).usage = none :=
    enrichMid_usage _ d h
  refine ⟨?_, ?_, (bestPair_spec _).2.1, (bestPair_spec _).1⟩
  · show (enrichUsageStep (⟨mfr, osd, UsageInferrer.infer⟩ : Resolvers)
        (enrichMid ⟨mfr, osd, UsageInferrer.infer⟩ d)).usage = _
    unfold enrichUsageStep
    rw [hmid]
    dsimp only
    have hne := bestPair_usage_ne_empty
      (enrichMid (⟨mfr, osd, UsageInferrer.infer⟩ : Resolvers) d)
    by_cases hc : 30 < (UsageInferrer.infer
        (enrichMid (⟨mfr, osd, UsageInferrer.infer⟩ : Resolvers) d)).confidence
    · rw [if_pos ⟨hne, hc⟩, if_pos hc]
    · rw [if_neg (fun hand => hc hand.2), if_neg hc]
      exact hmid
  · show min ((UsageInferrer.bestPair _).1 * 10) 100 = _
    omega

/-- The device of the C6 witness: a Windows-looking host with SMB and RDP
open and no usage yet. -/
def c6Device : Device :=
  Device.new 0 { ip := some "192.168.1.7", hostname := some "DESKTOP-ABC",
                 ports := some [445, 3389] }

set_option maxRecDepth 4000 in
/-- C6 (witness): the threshold theorem applied at a concrete device whose
best category scores 7 (confidence 70 > 30), so enrichment sets
`Computer/Workstation`. -/
theorem enrichDevice_usage_threshold_witness :
    ((enrichDevice ⟨fun _ => none, fun _ => (none, none), UsageInferrer.infer⟩
          c6Device).usage
        = if 30 < (UsageInferrer.infer
              (enrichMid ⟨fun _ => none, fun _ => (none, none), UsageInferrer.infer⟩
                c6Device)).confidence
          then some (UsageInferrer.infer
              (enrichMid ⟨fun _ => none, fun _ => (none, none), UsageInferrer.infer⟩
                c6Device)).usage
          else none)
    ∧ (enrichDevice ⟨fun _ => none, fun _ => (none, none), UsageInferrer.infer⟩
          c6Device).usage = some "Computer/Workstation" :=
  ⟨(enrichDevice_usage_threshold (fun _ => none) (fun _ => (none, none))
      c6Device (by decide)).1,
   by decide⟩

set_option maxRecDepth 4000 in
/-- C1 (witness): the stitching theorem at the spec's seed scenario
values. -/
theorem macAgg_dualstack_stitch_witness :
    ∃ dev : Device,
      (MacAgg.addDevice stubResolvers 2
          (MacAgg.addDevice stubResolvers 1 MacAgg.emptyStore
            { mac := some "AA:BB:CC:DD:EE:01", ipv4 := some "192.168.1.10" }).2
          { mac := some "AA:BB:CC:DD:EE:01", ipv6 := ["fe80::1"] }).2.devices
        = [("mac:" ++ normalizeMac "AA:BB:CC:DD:EE:01", dev)]
      ∧ dev.mac = some (normalizeMac "AA:BB:CC:DD:EE:01")
      ∧ dev.ipv4 = some "192.168.1.10"
      ∧ "fe80::1" ∈ dev.ipv6.map IPv6Entry.address :=
  macAgg_dualstack_stitch stubResolvers 1 2 "AA:BB:CC:DD:EE:01" "192.168.1.10" "fe80::1"

/-- C7 (witness): the amended characterisation applied at `fe80::2`. -/
theorem getIPv6Type_amended_characterisation_witness :
    getIPv6Type "fe80::2" = "link-local" :=
  (getIPv6Type_amended_characterisation "fe80::2").1.mpr (by decide)
